import Mathlib

/-!
Verification of the x402 autopay extension core (challenge parsing, policy
engine, wallet security lifecycle, authorization building, pending-challenge
store) against its natural-language design document.

Shallow-embedding conventions:
* JavaScript numbers are modelled as `JQ := Option ℚ`, where `none` stands for
  a non-finite value (NaN); comparisons involving `none` are `false`, and
  arithmetic with `none` yields `none`, matching IEEE NaN propagation for the
  operations used by the source.
* Timestamps (`Date.now()`, `lockedUntil`, `createdAt`, `expiresAt`) are
  natural numbers of milliseconds; JS subtraction that could go negative only
  feeds `>` comparisons against non-negative quantities, where truncated
  subtraction agrees.
* JavaScript objects used as string-keyed maps are association lists in
  insertion order; property update keeps the original position, matching JS
  enumeration order for string keys.
* Platform primitives (`JSON.parse`, `atob`, `Number(string)`,
  number-to-string conversion, `crypto.randomUUID`) are supplied as an
  explicit `JsPlatform` record; theorems quantify over it, witnesses
  instantiate it with concrete tables that agree with the real primitives on
  the inputs used.
-/

/-- JS number: `some q` is the finite value `q`, `none` is NaN. -/
abbrev JQ := Option ℚ

/-- JS `a + b` (NaN-propagating). -/
def jqAdd : JQ → JQ → JQ
  | some a, some b => some (a + b)
  | _, _ => none

/-- JS `a > b` (`false` whenever either side is NaN). -/
def jqGt : JQ → JQ → Bool
  | some a, some b => decide (b < a)
  | _, _ => false

/-- JS `a <= b` (`false` whenever either side is NaN). -/
def jqLe : JQ → JQ → Bool
  | some a, some b => decide (a ≤ b)
  | _, _ => false

/-- JS strict equality `a === b` on numbers. -/
def jqEq : JQ → JQ → Bool
  | some a, some b => decide (a = b)
  | _, _ => false

/-- Association-list lookup, modelling `obj[key]` on a string-keyed object
(first binding wins). -/
def assocGet {α : Type} : List (String × α) → String → Option α
  | [], _ => none
  | p :: t, k => if p.1 = k then some p.2 else assocGet t k

/-- Property assignment `obj[key] = v`: overwrite in place, else append. -/
def assocSet {α : Type} (m : List (String × α)) (k : String) (v : α) :
    List (String × α) :=
  if (m.find? (fun p => p.1 = k)).isSome then
    m.map (fun p => if p.1 = k then (k, v) else p)
  else m ++ [(k, v)]

/-- Property deletion `delete obj[key]`. -/
def assocRemove {α : Type} (m : List (String × α)) (k : String) :
    List (String × α) :=
  m.filter (fun p => ¬ p.1 = k)

/-! ## Data model (src/shared/types.ts) -/

inductive ChainId | polygonAmoy | polygon
deriving DecidableEq, Repr

inductive ExtensionStatus | idle | paying | verified
deriving DecidableEq, Repr

structure ExtensionSettings where
  thresholdUsd : JQ
  dailyAutoCapUsd : JQ
  preferredToken : String
  chain : ChainId
  promptRequired : Bool
deriving DecidableEq, Repr

structure WalletData where
  address : String
  encryptedPrivateKey : Option String := none
  encryptionSalt : Option String := none
  encryptionIv : Option String := none
  privateKey : Option String := none
  lockDurationMinutes : Option JQ := none
  lockedUntil : ℕ := 0
  label : Option String := none
deriving DecidableEq, Repr

inductive PolicyMode | ask | deny
deriving DecidableEq, Repr

structure SitePolicy where
  origin : String
  allowUnderThreshold : Bool
  mode : PolicyMode
  capUsd : Option JQ
  lifetimeUsd : JQ
  dailyUsd : JQ
  lastResetISO : String
deriving DecidableEq, Repr

inductive PaymentStatus | pending | success | denied | error
deriving DecidableEq, Repr

structure PaymentRecord where
  id : String
  origin : String
  endpoint : String
  amountUsd : JQ
  tokenSymbol : String
  timestamp : ℕ
  status : PaymentStatus
  autoApproved : Bool
  txHash : Option String := none
  note : Option String := none
deriving DecidableEq, Repr

structure JwtCacheEntry where
  paymentId : String
  jwt : String
  expiresAt : ℕ
deriving DecidableEq, Repr

/-- JSON values, for `JSON.parse` results and `rawChallenge` payloads. -/
inductive Json
  | null : Json
  | bool : Bool → Json
  | num : ℚ → Json
  | str : String → Json
  | arr : List Json → Json
  | obj : List (String × Json) → Json

structure ChallengeDetails where
  amountUsd : JQ
  tokenSymbol : String
  challengeId : String
  endpoint : String
  origin : String
  rawHeaders : List (String × String)
  method : String
  chainId : JQ
  network : Option String := none
  /-- kept as a raw JSON value: the source casts whatever truthy JSON value
  it finds into this field without checking it is a string. -/
  tokenAddress : Json
  seller : String
  amountAtomic : String
  tokenName : Option String := none
  tokenVersion : Option String := none
  tokenDecimals : Option JQ := none
  x402Version : Option JQ := none
  rawChallenge : Option Json := none

structure PendingChallenge where
  challenge : ChallengeDetails
  tabId : Option ℕ := none
  createdAt : ℕ
  windowId : Option ℕ := none

structure BalanceCache where
  tokenBalance : String
  rawBalance : String
  usd : JQ
  usdRate : JQ
  lastFetched : ℕ
  tokenSymbol : String
  decimals : Option JQ := none
  tokenAddress : Option String := none
deriving DecidableEq, Repr

structure Balances where
  polygonAmoy : BalanceCache
  polygon : BalanceCache
deriving DecidableEq, Repr

structure ExtensionState where
  settings : ExtensionSettings
  wallet : Option WalletData := none
  balance : BalanceCache
  balances : Balances
  policies : List (String × SitePolicy)
  history : List PaymentRecord
  jwtCache : List (String × JwtCacheEntry)
  pendingChallenges : List (String × PendingChallenge)
  extensionStatus : ExtensionStatus

inductive ResolutionAction | retry | deny | error | pending
deriving DecidableEq, Repr

structure ChallengeResolution where
  action : ResolutionAction
  message : Option String := none
  retryHeaders : Option (List (String × String)) := none
  challengeId : Option String := none
deriving DecidableEq, Repr

/-! ## Policy engine (shouldAutoApprove / spentInLast24h) -/

/-- `spentInLast24h` (crypto.ts): sum of `amountUsd` over history records with
status success, `autoApproved`, and `timestamp >= Date.now() - 24h`. -/
def spentInLast24h (history : List PaymentRecord) (now : ℕ) : JQ :=
  let cutoff := now - 24 * 60 * 60 * 1000
  (history.filter (fun r =>
      r.status = PaymentStatus.success ∧ r.autoApproved ∧ r.timestamp ≥ cutoff)).foldl
    (fun sum r => jqAdd sum r.amountUsd) (some 0)

/-- `shouldAutoApprove` (crypto.ts): the autopay gate, translated clause by
clause from the source. -/
def shouldAutoApprove (state : ExtensionState) (challenge : ChallengeDetails)
    (now : ℕ) : Bool :=
  let policy := assocGet state.policies challenge.origin
  if (policy.map (·.mode)) = some PolicyMode.deny then false
  else if jqGt challenge.amountUsd state.settings.thresholdUsd then false
  else if state.settings.promptRequired then false
  else if policy.isSome ∧ (policy.map (·.allowUnderThreshold)) = some false then false
  else if (policy.bind (·.capUsd)).isSome ∧
      jqGt ((policy.bind (·.capUsd)).getD none) (some 0) ∧
      jqGt (jqAdd ((policy.map (·.lifetimeUsd)).getD none) challenge.amountUsd)
        ((policy.bind (·.capUsd)).getD none) then false
  else if jqGt state.settings.dailyAutoCapUsd (some 0) ∧
      jqGt (jqAdd (spentInLast24h state.history now) challenge.amountUsd)
        state.settings.dailyAutoCapUsd then false
  else true

/-! ## State store adapter (src/shared/storage.ts)

`chrome.storage.local` together with the module-level runtime variables
(`runtimePrivateKey`, `runtimeLockedUntil`) form the `World`. -/

structure World where
  /-- contents of `chrome.storage.local`'s `state` key (`none` = unset). -/
  stored : Option ExtensionState := none
  runtimePrivateKey : Option String := none
  runtimeLockedUntil : ℕ := 0

def defaultSettings : ExtensionSettings :=
  { thresholdUsd := some (1/20), dailyAutoCapUsd := some 1,
    preferredToken := "USDC", chain := ChainId.polygonAmoy,
    promptRequired := false }

def defaultBalanceTemplate : BalanceCache :=
  { tokenBalance := "0", rawBalance := "0", usd := some 0, usdRate := some 1,
    lastFetched := 0, tokenSymbol := "USDC", decimals := some (some 6) }

/-- `cloneBalance(overrides?)` = `{...defaultBalanceTemplate, ...overrides}`.
Stored balances round-trip through JSON storage, which drops `undefined`
values, so an absent `decimals` key falls back to the template's `6`;
the template has no `tokenAddress` key. -/
def cloneBalance : Option BalanceCache → BalanceCache
  | none => defaultBalanceTemplate
  | some b => { b with decimals := some (b.decimals.getD (some 6)) }

def INITIAL_STATE : ExtensionState :=
  { settings := defaultSettings, balance := cloneBalance none,
    balances := ⟨cloneBalance none, cloneBalance none⟩,
    policies := [], history := [], jwtCache := [], pendingChallenges := [],
    extensionStatus := ExtensionStatus.idle }

/-- `sanitizeWalletForPersist`: drop the `privateKey` field. -/
def sanitizeWalletForPersist : Option WalletData → Option WalletData
  | none => none
  | some w => some { w with privateKey := none }

/-- JS truthiness of an optional string (`undefined` and `""` are falsy). -/
def strTruthy : Option String → Bool
  | some s => s ≠ ""
  | none => false

/-- `runtimePrivateKey && runtimeLockedUntil > now`: the module-level
transient secret is valid. -/
def runtimeUnlocked (w : World) (now : ℕ) : Prop :=
  strTruthy w.runtimePrivateKey = true ∧ w.runtimeLockedUntil > now

instance (w : World) (now : ℕ) : Decidable (runtimeUnlocked w now) := by
  unfold runtimeUnlocked; infer_instance

/-- `applyRuntimeWallet(state, includePrivateKey)`: overlay the runtime
unlock on the wallet record read from storage, clearing an expired runtime
secret as a side effect on the module variables. -/
def applyRuntimeWallet (w : World) (state : ExtensionState)
    (includePrivateKey : Bool) (now : ℕ) : World × ExtensionState :=
  match state.wallet with
  | none => (w, state)
  | some wt =>
    if runtimeUnlocked w now then
      if includePrivateKey then
        (w, { state with wallet := some { wt with
          privateKey := w.runtimePrivateKey,
          lockedUntil := w.runtimeLockedUntil } })
      else
        (w, { state with wallet := some { wt with
          privateKey := none, lockedUntil := w.runtimeLockedUntil } })
    else
      ({ w with runtimePrivateKey := none, runtimeLockedUntil := 0 },
       { state with wallet := some { wt with privateKey := none, lockedUntil := 0 } })

/-- `getState(options?)`: read-merge of the stored document (the spread
merges with `INITIAL_STATE`/`defaultSettings` are the identity on a fully
populated stored document of the current shape, except the balance
re-cloning), the plaintext-key repair write, and the runtime-wallet
overlay. -/
def getState (w : World) (now : ℕ) (includePrivateKey : Bool) :
    World × ExtensionState :=
  match w.stored with
  | none => ({ w with stored := some INITIAL_STATE }, INITIAL_STATE)
  | some s =>
    let merged : ExtensionState := { s with
      balance := cloneBalance (some s.balance),
      balances := ⟨cloneBalance (some s.balances.polygonAmoy),
                   cloneBalance (some s.balances.polygon)⟩ }
    match merged.wallet with
    | some wt =>
      if strTruthy wt.privateKey then
        let persistedW := { wt with privateKey := none, lockedUntil := 0 }
        let merged2 := { merged with wallet := some persistedW }
        let w2 := { w with stored := some merged2,
                           runtimePrivateKey := none, runtimeLockedUntil := 0 }
        applyRuntimeWallet w2 merged2 includePrivateKey now
      else applyRuntimeWallet w merged includePrivateKey now
    | none => applyRuntimeWallet w merged includePrivateKey now

/-- `Partial<ExtensionState>`: `none` = key absent. The `wallet` key
distinguishes "absent" from "explicitly undefined" because `setState` tests
it with `hasOwnProperty`. -/
structure StateUpdate where
  settings : Option ExtensionSettings := none
  wallet : Option (Option WalletData) := none
  balance : Option BalanceCache := none
  balances : Option Balances := none
  policies : Option (List (String × SitePolicy)) := none
  history : Option (List PaymentRecord) := none
  jwtCache : Option (List (String × JwtCacheEntry)) := none
  pendingChallenges : Option (List (String × PendingChallenge)) := none
  extensionStatus : Option ExtensionStatus := none

/-- `setState(update)`: read-modify-write; captures the runtime wallet when
the update carries a `wallet` key and always persists the sanitized form. -/
def setState (w : World) (now : ℕ) (update : StateUpdate) :
    World × ExtensionState :=
  let r := getState w now false
  let current := r.2
  let nextWallet := match update.wallet with
    | some nw => nw
    | none => current.wallet
  let next : ExtensionState :=
    { settings := update.settings.getD current.settings,
      wallet := nextWallet,
      balance := update.balance.getD current.balance,
      balances := update.balances.getD current.balances,
      policies := update.policies.getD current.policies,
      history := update.history.getD current.history,
      jwtCache := update.jwtCache.getD current.jwtCache,
      pendingChallenges := update.pendingChallenges.getD current.pendingChallenges,
      extensionStatus := update.extensionStatus.getD current.extensionStatus }
  let w2 := if update.wallet.isSome then
      { r.1 with runtimePrivateKey := nextWallet.bind (·.privateKey),
                 runtimeLockedUntil := (nextWallet.map (·.lockedUntil)).getD 0 }
    else r.1
  ({ w2 with stored := some { next with wallet := sanitizeWalletForPersist next.wallet } },
   next)

/-- `Partial<ExtensionSettings>`. -/
structure SettingsUpdate where
  thresholdUsd : Option JQ := none
  dailyAutoCapUsd : Option JQ := none
  preferredToken : Option String := none
  chain : Option ChainId := none
  promptRequired : Option Bool := none

def updateSettings (w : World) (now : ℕ) (u : SettingsUpdate) :
    World × ExtensionState :=
  let r := getState w now false
  let s := r.2.settings
  let merged : ExtensionSettings :=
    { thresholdUsd := u.thresholdUsd.getD s.thresholdUsd,
      dailyAutoCapUsd := u.dailyAutoCapUsd.getD s.dailyAutoCapUsd,
      preferredToken := u.preferredToken.getD s.preferredToken,
      chain := u.chain.getD s.chain,
      promptRequired := u.promptRequired.getD s.promptRequired }
  setState r.1 now { settings := some merged }

def addHistory (w : World) (now : ℕ) (record : PaymentRecord) :
    World × ExtensionState :=
  let r := getState w now false
  setState r.1 now { history := some ((record :: r.2.history).take 2000) }

def pruneJwtCache (w : World) (now : ℕ) : World × ExtensionState :=
  let r := getState w now false
  setState r.1 now
    { jwtCache := some (r.2.jwtCache.filter (fun p => decide (p.2.expiresAt > now))) }

/-! ## Pending challenge store (crypto.ts) -/

def PENDING_CHALLENGE_TTL_MS : ℕ := 10 * 60 * 1000

/-- The retention test of `pruneExpiredChallenges`: an entry is dropped when
`entry.createdAt && now - entry.createdAt > PENDING_CHALLENGE_TTL_MS`
(JS truthiness: a `createdAt` of `0` never expires). -/
def challengeFresh (now : ℕ) (p : String × PendingChallenge) : Bool :=
  !(decide (p.2.createdAt ≠ 0) && decide (now - p.2.createdAt > PENDING_CHALLENGE_TTL_MS))

/-- `pruneExpiredChallenges`: drop entries with a truthy `createdAt` older
than the TTL; write back only when something was dropped. -/
def pruneExpiredChallenges (w : World) (now : ℕ) : World :=
  let r := getState w now false
  let source := r.2.pendingChallenges
  let pruned := source.filter (challengeFresh now)
  if source.any (fun p => !(challengeFresh now p)) then
    (setState r.1 now { pendingChallenges := some pruned }).1
  else r.1

/-- `getPendingChallenges`: every read first prunes. -/
def getPendingChallenges (w : World) (now : ℕ) :
    World × List (String × PendingChallenge) :=
  let w1 := pruneExpiredChallenges w now
  let r := getState w1 now false
  (r.1, r.2.pendingChallenges)

def savePendingChallenges (w : World) (now : ℕ)
    (pending : List (String × PendingChallenge)) : World :=
  (setState w now { pendingChallenges := some pending }).1

def ensureChallengeStored (w : World) (now : ℕ) (challenge : ChallengeDetails)
    (tabId : Option ℕ) (windowId : Option ℕ) : World :=
  let r := getPendingChallenges w now
  let pending := assocSet r.2 challenge.challengeId
    { challenge := challenge, tabId := tabId, windowId := windowId, createdAt := now }
  savePendingChallenges r.1 now pending

/-! ## Challenge parser (src/shared/x402.ts)

Platform primitives used by the parser and the authorization builder. -/

structure JsPlatform where
  /-- `JSON.parse` (`none` = the call threw). -/
  jsonParse : String → Option Json
  /-- `atob` (`none` = the call threw). -/
  atob : String → Option String
  /-- `Number(string)` (`none` = non-finite result). -/
  toNumber : String → JQ
  /-- JS number-to-string conversion for finite numbers. -/
  numToString : ℚ → String
  /-- `crypto.randomUUID()`. -/
  randomUUID : String

/-- `String(x)` for a finite JS number, else `"NaN"`. -/
def jqToString (P : JsPlatform) : JQ → String
  | some q => P.numToString q
  | none => "NaN"

/-- JS truthiness of a JSON value read off a parsed object (`none` =
`undefined`). JSON.parse never yields NaN, so `num 0` is the only falsy
number here. -/
def jsTruthy : Option Json → Bool
  | none => false
  | some Json.null => false
  | some (Json.bool b) => b
  | some (Json.num q) => decide (q ≠ 0)
  | some (Json.str s) => decide (s ≠ "")
  | some (Json.arr _) => true
  | some (Json.obj _) => true

/-- JS truthiness of a number (`0` and NaN are falsy). -/
def jqTruthy : JQ → Bool
  | none => false
  | some q => decide (q ≠ 0)

/-- Property access `j[k]` on a parsed JSON value (arrays and primitives
have none of the accessed properties). -/
def objGet : Json → String → Option Json
  | Json.obj fields, k => assocGet fields k
  | _, _ => none

mutual
/-- JS `String(v)` for a JSON value. -/
def jsStringOfJson (P : JsPlatform) : Json → String
  | Json.null => "null"
  | Json.bool true => "true"
  | Json.bool false => "false"
  | Json.num q => P.numToString q
  | Json.str s => s
  | Json.arr xs => String.intercalate "," (jsStringList P xs)
  | Json.obj _ => "[object Object]"

/-- `Array.prototype.toString` element conversion: `null` becomes `""`. -/
def jsStringList (P : JsPlatform) : List Json → List String
  | [] => []
  | Json.null :: xs => "" :: jsStringList P xs
  | x :: xs => jsStringOfJson P x :: jsStringList P xs
end

/-- JS `Number(v ?? 0)` for an optional JSON value. -/
def jsNumberOfJson (P : JsPlatform) : Option Json → JQ
  | none => some 0
  | some Json.null => some 0
  | some (Json.bool b) => some (if b then 1 else 0)
  | some (Json.num q) => some q
  | some (Json.str s) => P.toNumber s
  | some (Json.arr xs) => P.toNumber (jsStringOfJson P (Json.arr xs))
  | some (Json.obj _) => none

structure RequestInfo where
  origin : String
  endpoint : String
  method : String

/-- JS `\s`-ish whitespace (the characters relevant to these headers). -/
def isJsSpace (c : Char) : Bool :=
  c = ' ' || c = '\t' || c = '\n' || c = '\r' ||
    c = Char.ofNat 12 || c = Char.ofNat 11 || c = Char.ofNat 160

/-- JS `String.prototype.trim`. -/
def jsTrim (s : String) : String :=
  String.mk (((s.data.dropWhile isJsSpace).reverse.dropWhile isJsSpace).reverse)

/-- JS `String.prototype.toUpperCase` (ASCII range suffices here). -/
def jsToUpper (s : String) : String :=
  String.mk (s.data.map Char.toUpper)

/-- `fromJsonChallenge`: parse a JSON challenge document and extract a
challenge record; `undefined` when the text does not parse, is not an
object, or fails the `!chain || !tokenAddress || typeof seller !== "string"`
guard. -/
def fromJsonChallenge (P : JsPlatform) (challengeJson : String)
    (info : RequestInfo) (rawHeaders : List (String × String))
    (fallbackId : String) : Option ChallengeDetails :=
  match P.jsonParse challengeJson with
  | none => none
  | some parsed =>
    let isObjLike := match parsed with
      | Json.obj _ => true
      | Json.arr _ => true
      | _ => false
    if ¬ isObjLike = true then none else
    let amount := objGet parsed "amount"
    let amountUsdF := objGet parsed "amountUsd"
    let token := objGet parsed "token"
    let chainIdF := objGet parsed "chainId"
    let seller := objGet parsed "seller"
    let tokenAddress := objGet parsed "tokenAddress"
    let tokenNameF := objGet parsed "tokenName"
    let tokenVersionF := objGet parsed "tokenVersion"
    let tokenDecimalsF := objGet parsed "tokenDecimals"
    let idF := objGet parsed "id"
    let atomic := match amount with
      | some (Json.str s) => s
      | some Json.null => "0"
      | none => "0"
      | some v => jsStringOfJson P v
    let requestAmountUsd : JQ := match amountUsdF with
      | some (Json.num q) => some q
      | other => jsNumberOfJson P other
    let tokenSymbol := match token with
      | some (Json.str s) => jsToUpper s
      | _ => "USDC"
    let chain : JQ := match chainIdF with
      | some (Json.num q) => some q
      | other => jsNumberOfJson P other
    if ¬ jqTruthy chain = true then none
    else if ¬ jsTruthy tokenAddress = true then none
    else match seller with
      | some (Json.str sellerStr) =>
        some { amountUsd := some (requestAmountUsd.getD 0),
               tokenSymbol := tokenSymbol,
               challengeId := match idF with
                 | some (Json.str s) => s
                 | _ => fallbackId,
               endpoint := info.endpoint, origin := info.origin,
               method := info.method, rawHeaders := rawHeaders,
               chainId := chain,
               tokenAddress := tokenAddress.getD Json.null,
               seller := sellerStr,
               amountAtomic := atomic,
               tokenName := match tokenNameF with
                 | some (Json.str s) => some s
                 | _ => none,
               tokenVersion := match tokenVersionF with
                 | some (Json.str s) => some s
                 | _ => none,
               tokenDecimals := match tokenDecimalsF with
                 | some (Json.num q) => some (some q)
                 | _ => none,
               rawChallenge := some parsed }
      | _ => none

/-- The `/^[A-Za-z0-9+\x2f=]+$/` pre-check before attempting `atob`. -/
def isBase64Candidate (s : String) : Bool :=
  decide (s ≠ "") && s.data.all (fun c => c.isAlphanum || c = '+' || c = '/' || c = '=')

/-- `parseChallengeValue`: try the trimmed value, then (when it looks like
base64 and decodes) its decoded form, as JSON challenge documents. -/
def parseChallengeValue (P : JsPlatform) (value : String) (info : RequestInfo)
    (rawHeaders : List (String × String)) (fallbackId : String) :
    Option ChallengeDetails :=
  let trimmed := jsTrim value
  let attempts : List String :=
    if trimmed ≠ "" then
      [trimmed] ++
        (if isBase64Candidate trimmed then
          match P.atob trimmed with
          | some decoded => [decoded]
          | none => []
        else [])
    else []
  attempts.findSome? (fun a => fromJsonChallenge P a info rawHeaders fallbackId)

def isParamKeyChar (c : Char) : Bool :=
  c.isAlphanum || c = '_' || c = '-'

/-- One attempt of the parameter regex
`\s*([a-zA-Z0-9_-]+)=(("[^"]*")|([^,]+))` anchored at the current position:
returns the key, the raw group-2 text (quotes included when the quoted
alternative matched), and the remaining input. -/
def tryParamAt (cs : List Char) : Option (String × String × List Char) :=
  let cs1 := cs.dropWhile isJsSpace
  let key := cs1.takeWhile isParamKeyChar
  if key.isEmpty then none else
  let nonQuoted := fun (rest : List Char) =>
    let v := rest.takeWhile (fun c => ¬ c = ',')
    if v.isEmpty then none
    else some (String.mk key, String.mk v, rest.drop v.length)
  match cs1.drop key.length with
  | '=' :: rest =>
    match rest with
    | '"' :: rest2 =>
      let inner := rest2.takeWhile (fun c => ¬ c = '"')
      if inner.length < rest2.length then
        some (String.mk key, String.mk ('"' :: (inner ++ ['"'])),
              rest2.drop (inner.length + 1))
      else nonQuoted rest
    | rest => nonQuoted rest
  | _ => none

/-- The global-regex `exec` loop: leftmost match, then continue after it;
on failure at a position, advance one character. -/
def scanParams : ℕ → List Char → List (String × String)
  | 0, _ => []
  | _, [] => []
  | fuel + 1, cs =>
    match tryParamAt cs with
    | some (k, raw, rest) => (k, raw) :: scanParams fuel rest
    | none => scanParams fuel cs.tail

/-- `raw.replace(/^"|"$/g, "")`. -/
def stripOuterQuotes (s : String) : String :=
  let cs := match s.data with
    | '"' :: t => t
    | other => other
  String.mk (if cs.getLast? = some '"' then cs.dropLast else cs)

/-- The `/^\s*(x-?402)\s+(.+)$/i` scheme match, returning the parameter
part. A header whose parameter part is empty or spans a line break yields
no usable parameters in the source either way. -/
def matchAuthHeader (headerValue : String) : Option String :=
  let cs := headerValue.data.dropWhile isJsSpace
  let afterScheme : Option (List Char) :=
    match cs with
    | x :: rest =>
      if x.toLower = 'x' then
        let rest2 := match rest with
          | '-' :: r => r
          | other => other
        match rest2 with
        | a :: b :: c :: r =>
          if a = '4' ∧ b = '0' ∧ c = '2' then some r else none
        | _ => none
      else none
    | [] => none
  match afterScheme with
  | none => none
  | some r =>
    if (r.takeWhile isJsSpace).isEmpty then none
    else
      let body := r.dropWhile isJsSpace
      if body.isEmpty then none
      else if body.any (fun c => c = '\n' ∨ c = '\r') then none
      else some (String.mk body)

/-- The parameter map extracted from a `WWW-Authenticate` header value
(`none` when the scheme regex does not match). `fromAuthenticateChallenge`
parses an embedded `challenge`/`payload` parameter recursively as a JSON
challenge, else uses the flat parameters. -/
def authParams (headerValue : String) : Option (List (String × String)) :=
  match matchAuthHeader headerValue with
  | none => none
  | some paramsPart =>
    some ((scanParams paramsPart.length paramsPart.data).foldl
      (fun acc kv => assocSet acc kv.1 (stripOuterQuotes kv.2)) [])

def fromAuthenticateChallenge (P : JsPlatform) (headerValue : String)
    (info : RequestInfo) (rawHeaders : List (String × String))
    (fallbackId : String) : Option ChallengeDetails :=
  match authParams headerValue with
  | none => none
  | some params =>
    let challengeValue := assocGet params "challenge" <|> assocGet params "payload"
    let viaJson := if strTruthy challengeValue then
        parseChallengeValue P (challengeValue.getD "") info rawHeaders fallbackId
      else none
    match viaJson with
    | some c => some c
    | none =>
      let amountUsdStr := assocGet params "amountUsd" <|> assocGet params "amount_usd" <|>
        assocGet params "price" <|> assocGet params "cost"
      let amountUsd : JQ := if strTruthy amountUsdStr then
          P.toNumber (amountUsdStr.getD "")
        else some 0
      let tokenParam := (assocGet params "token" <|> assocGet params "tokenSymbol" <|>
        assocGet params "token_symbol").getD "USDC"
      let seller := assocGet params "seller" <|> assocGet params "to"
      let tokenAddress := assocGet params "tokenAddress" <|>
        assocGet params "token_address" <|> assocGet params "contract"
      let chainRaw := assocGet params "chainId" <|> assocGet params "chain_id" <|>
        assocGet params "chain"
      let chainId : JQ := if strTruthy chainRaw then
          P.toNumber (chainRaw.getD "")
        else some 137
      let amountAtomicParam := assocGet params "amountAtomic" <|>
        assocGet params "amount_atomic" <|> assocGet params "amount"
      if ¬ strTruthy seller = true then none
      else if ¬ strTruthy tokenAddress = true then none
      else if ¬ strTruthy amountAtomicParam = true then none
      else some
        { amountUsd := some (amountUsd.getD 0),
          tokenSymbol := jsToUpper tokenParam,
          challengeId := match assocGet params "id" with
            | some s => if s ≠ "" then s else fallbackId
            | none => fallbackId,
          endpoint := info.endpoint, origin := info.origin, method := info.method,
          rawHeaders := rawHeaders,
          chainId := some (chainId.getD 137),
          tokenAddress := Json.str (tokenAddress.getD ""),
          seller := seller.getD "",
          amountAtomic := amountAtomicParam.getD "",
          rawChallenge := some (Json.obj (params.map (fun kv => (kv.1, Json.str kv.2)))) }

/-- The "Fallback legacy headers" tail of `parseChallengeHeaders`
(`parseChallengeHeaders` tries the dedicated JSON header, then the
`WWW-Authenticate` challenge, then this; `headers` is the response header
map with lower-cased names — `Headers.get` is case-insensitive and
`baseDetails` lower-cases the keys, so both access paths read this same
map). -/
def parseLegacyHeaders (P : JsPlatform) (headers : List (String × String))
    (info : RequestInfo) (challengeId : String) : Option ChallengeDetails :=
  let amountUsd : JQ := match assocGet headers "x-402-amount" <|>
      assocGet headers "x-payment-amount-usd" with
    | some s => P.toNumber s
    | none => some 0
  let tokenSymbol := (assocGet headers "x-402-token" <|>
    assocGet headers "x-payment-token").getD "USDC"
  let seller := assocGet headers "x-402-address" <|>
    assocGet headers "x-payment-seller"
  let tokenAddress := assocGet headers "x-402-token-address" <|>
    assocGet headers "x-payment-token-address"
  let chain : JQ := match assocGet headers "x-402-chain" <|>
      assocGet headers "x-payment-chain" with
    | some s => P.toNumber s
    | none => some 137
  let atomic := assocGet headers "x-402-amount-atomic" <|>
    assocGet headers "x-payment-amount"
  if ¬ strTruthy seller = true then none
  else if ¬ strTruthy tokenAddress = true then none
  else if ¬ strTruthy atomic = true then none
  else some
    { amountUsd := amountUsd,
      tokenSymbol := tokenSymbol,
      challengeId := challengeId,
      endpoint := info.endpoint, origin := info.origin, method := info.method,
      rawHeaders := headers,
      chainId := chain,
      tokenAddress := Json.str (tokenAddress.getD ""),
      seller := seller.getD "",
      amountAtomic := atomic.getD "" }

def parseChallengeHeaders (P : JsPlatform) (headers : List (String × String))
    (info : RequestInfo) : Option ChallengeDetails :=
  let rawHeaders := headers
  let challengeId := (assocGet headers "x-402-id").getD P.randomUUID
  let viaJsonHeader :=
    match assocGet headers "x-payment-challenge" with
    | some v => if v ≠ "" then parseChallengeValue P v info rawHeaders challengeId else none
    | none => none
  match viaJsonHeader with
  | some c => some c
  | none =>
    let viaAuth :=
      match assocGet headers "www-authenticate" with
      | some v => if v ≠ "" then fromAuthenticateChallenge P v info rawHeaders challengeId else none
      | none => none
    match viaAuth with
    | some c => some c
    | none => parseLegacyHeaders P headers info challengeId

/-! ## Body challenge parsing (content.main.ts) -/

def leadsWith : List Char → List Char → Bool
  | [], _ => true
  | _ :: _, [] => false
  | a :: as, b :: bs => a = b && leadsWith as bs

def includesFrom (needle : List Char) : List Char → Bool
  | [] => needle.isEmpty
  | c :: cs => leadsWith needle (c :: cs) || includesFrom needle cs

/-- JS `String.prototype.includes`. -/
def strIncludes (hay needle : String) : Bool :=
  includesFrom needle.data hay.data

def isHexDigit (c : Char) : Bool :=
  c.isDigit || ('a' ≤ c && c ≤ 'f') || ('A' ≤ c && c ≤ 'F')

/-- The `/^0x[0-9a-f]+$/i` test on an already-trimmed string. -/
def isHexAmount (s : String) : Bool :=
  match s.data with
  | '0' :: x :: rest =>
    (x = 'x' || x = 'X') && !rest.isEmpty && rest.all isHexDigit
  | _ => false

def hexVal (c : Char) : ℕ :=
  if c.isDigit then c.toNat - Char.toNat '0'
  else if 'a' ≤ c && c ≤ 'f' then c.toNat - Char.toNat 'a' + 10
  else c.toNat - Char.toNat 'A' + 10

/-- The numeric value of a hex-digit list (most significant first). -/
def hexToNat (l : List Char) : ℕ :=
  l.foldl (fun acc c => 16 * acc + hexVal c) 0

/-- JS `String.prototype.split` with a one-character separator. -/
def splitCharsOn (sep : Char) : List Char → List (List Char)
  | [] => [[]]
  | c :: cs =>
    match splitCharsOn sep cs with
    | [] => [[]]
    | r :: rs => if c = sep then [] :: r :: rs else (c :: r) :: rs

/-- `10 ** d` for a JS exponent `d`: exact for integer `d`; a fractional
`d` has an irrational power, outside the rational number model, mapped to
`none`. The spec and claims only involve integer decimals. -/
def jqPow10 (d : ℚ) : JQ :=
  if d.den = 1 then
    if 0 ≤ d.num then some ((10 : ℚ) ^ d.num.toNat)
    else some (1 / (10 : ℚ) ^ (-d.num).toNat)
  else none

/-- JS `Number(v)` for an optional JSON value (`undefined` → NaN). -/
def jsNumberStrict (P : JsPlatform) : Option Json → JQ
  | none => none
  | some v => jsNumberOfJson P (some v)

/-- `a ?? b` on JSON property lookups (`undefined` and `null` are
nullish). -/
def jsonCoalesce : Option Json → Option Json → Option Json
  | none, b => b
  | some Json.null, b => b
  | some v, _ => some v

/-- `Array.isArray(v) ? v : []`. -/
def arrayOrEmpty : Option Json → List Json
  | some (Json.arr xs) => xs
  | _ => []

/-- The `accepts.find` predicate: a truthy object whose `scheme` property
is the string `"exact"` (named-property access on non-objects yields
`undefined`, so only objects can match). -/
def isExactAccept (entry : Json) : Bool :=
  match objGet entry "scheme" with
  | some (Json.str s) => s = "exact"
  | _ => false

/-- The tail of `parseChallengeFromBody` once the `accepts` entry with
scheme `"exact"` has been found. The `BigInt(trimmed)` call cannot throw
because the hex pattern has already matched; both branches of the source's
`tokenSymbol` ternary are the literal `"USDC"`; named-property lookups on
a non-object `extra` (including an array) yield `undefined`, modelled by
the empty field list. -/
def bodyChallengeOfExact (P : JsPlatform) (headers : List (String × String))
    (payload exactEntry : Json) (info : RequestInfo) : Option ChallengeDetails :=
  let atomicSource : Option (String ⊕ ℚ) :=
    match objGet exactEntry "maxAmountRequired" with
    | some (Json.str s) => some (Sum.inl s)
    | mar =>
      match objGet exactEntry "amount" with
      | some (Json.str s) => some (Sum.inl s)
      | _ =>
        match mar with
        | some (Json.num q) => some (Sum.inr q)
        | _ => none
  let extraObj : List (String × Json) :=
    match objGet exactEntry "extra" with
    | some (Json.obj fs) => fs
    | _ => []
  let decimals : ℚ :=
    match assocGet extraObj "decimals" with
    | some (Json.num q) => q
    | some (Json.str s) =>
      if jsTrim s ≠ "" then
        match P.toNumber s with
        | some q => q
        | none => 6
      else 6
    | _ => 6
  let amountAtomic : Option String :=
    match atomicSource with
    | some (Sum.inl s) =>
      let trimmed := jsTrim s
      if isHexAmount trimmed then some (toString (hexToNat (trimmed.data.drop 2)))
      else if trimmed ≠ "" then some trimmed
      else none
    | some (Sum.inr q) => some (P.numToString q)
    | none => none
  if ¬ strTruthy amountAtomic = true then none else
  let asset : Option String :=
    match objGet exactEntry "asset" with
    | some (Json.str s) => some s
    | _ => none
  let payTo : Option String :=
    match objGet exactEntry "payTo" with
    | some (Json.str s) => some s
    | _ =>
      match assocGet extraObj "recipientAddress" with
      | some (Json.str s) => some s
      | _ => none
  if ¬ strTruthy asset = true then none else
  if ¬ strTruthy payTo = true then none else
  let tokenName : Option String :=
    match assocGet extraObj "name" with
    | some (Json.str s) => some s
    | _ => none
  let tokenVersion : Option String :=
    match assocGet extraObj "version" with
    | some (Json.str s) => some s
    | _ => none
  let tokenSymbol := "USDC"
  let amountUsd0 : JQ := jsNumberStrict P
    (jsonCoalesce (jsonCoalesce (objGet payload "amountUsd")
      (objGet exactEntry "amountUsd")) (assocGet extraObj "amountUsd"))
  let amountUsd : JQ :=
    match amountUsd0 with
    | some q => some q
    | none =>
      match P.toNumber (amountAtomic.getD "") with
      | some a =>
        match jqPow10 decimals with
        | some p => some (a / p)
        | none => none
      | none => some 0
  let network : String :=
    match objGet exactEntry "network" with
    | some (Json.str s) => s
    | _ => "eip155:137"
  let chainId : ℚ :=
    match P.toNumber ((((splitCharsOn ':' network.data).drop 1).head?.map
        (fun l => String.mk l)).getD network) with
    | some q => q
    | none => 137
  let challengeId : String :=
    match objGet payload "id" with
    | some (Json.str s) => s
    | _ => P.randomUUID
  some { amountUsd := amountUsd,
         tokenSymbol := tokenSymbol,
         challengeId := challengeId,
         endpoint := info.endpoint, origin := info.origin,
         method := info.method, rawHeaders := headers,
         chainId := some chainId,
         tokenAddress := Json.str (asset.getD ""),
         seller := payTo.getD "",
         amountAtomic := amountAtomic.getD "",
         tokenName := tokenName, tokenVersion := tokenVersion,
         tokenDecimals := some (some decimals),
         rawChallenge := some payload }

/-- `parseChallengeFromBody` (content.main.ts): parse a challenge out of a
402 response's JSON body when the headers yielded none. `headers` holds
the response headers with lowercased keys, and `bodyText` is the response
body text, parsed with the platform's JSON semantics (modelling
`await response.clone().json()`; `none` = the parse threw). -/
def parseChallengeFromBody (P : JsPlatform) (headers : List (String × String))
    (bodyText : String) (info : RequestInfo) : Option ChallengeDetails :=
  let contentType := (assocGet headers "content-type").getD ""
  if ¬ strIncludes contentType "application/json" = true then none else
  match P.jsonParse bodyText with
  | none => none
  | some payload =>
    let isObjLike := match payload with
      | Json.obj _ => true
      | Json.arr _ => true
      | _ => false
    if ¬ isObjLike = true then none else
    let accepts := arrayOrEmpty (objGet payload "accepts")
    match accepts.find? isExactAccept with
    | none => none
    | some exactEntry => bodyChallengeOfExact P headers payload exactEntry info

/-! ## Wallet lock bookkeeping and authorization builder (crypto.ts) -/

def MIN_LOCK_MINUTES : ℕ := 1
def MAX_LOCK_MINUTES : ℕ := 1440
def DEFAULT_LOCK_MINUTES : ℕ := 15

/-- `normalizeLockDuration`: clamp `Math.floor(minutes)` to `[1, 1440]`,
defaulting to 15 when the argument is absent or non-finite. -/
def normalizeLockDuration (minutes : Option JQ) : ℕ :=
  match minutes with
  | some (some q) => (min (max ⌊q⌋ (MIN_LOCK_MINUTES : ℤ)) (MAX_LOCK_MINUTES : ℤ)).toNat
  | _ => DEFAULT_LOCK_MINUTES

/-- `computeUnlockExpiry`: `Date.now() + duration minutes`. -/
def computeUnlockExpiry (minutes : Option JQ) (now : ℕ) : ℕ :=
  now + normalizeLockDuration minutes * 60 * 1000

def CHAIN_ID_BY_SETTING : ChainId → ℚ
  | ChainId.polygon => 137
  | ChainId.polygonAmoy => 80002

/-- `mapChainId`. -/
def mapChainId (chainId : JQ) : Option ChainId :=
  if chainId = some 137 then some ChainId.polygon
  else if chainId = some 80002 then some ChainId.polygonAmoy
  else none

/-- `canonicalNetworkForChain`. -/
def canonicalNetworkForChain (chainId : JQ) : Option String :=
  match chainId with
  | none => none
  | some q =>
    if q = 137 then some "polygon"
    else if q = 80002 then some "polygon-amoy"
    else none

/-- A trimmed non-empty string, else `undefined`. -/
def nonEmptyTrim (s : Option String) : Option String :=
  match s with
  | some v => if jsTrim v ≠ "" then some (jsTrim v) else none
  | none => none

/-- A JSON field value when it is a number. -/
def numField (j : Option Json) (k : String) : Option JQ :=
  match j.bind (fun v => objGet v k) with
  | some (Json.num q) => some (some q)
  | _ => none

/-- `normalizeNetworkDescriptor`: derive the network descriptor and protocol
version from the challenge, its raw accepted-options structure, the chain
id, or the configured chain. -/
def normalizeNetworkDescriptor (P : JsPlatform) (challenge : ChallengeDetails)
    (settings : ExtensionSettings) : String × ℕ :=
  let raw := challenge.rawChallenge
  let accepts : List Json := match raw.bind (fun v => objGet v "accepts") with
    | some (Json.arr xs) => xs
    | _ => []
  let firstAccept := accepts.find? (fun e => match e with
    | Json.obj fs =>
      match assocGet fs "scheme" with
      | some (Json.str s) => decide (s = "exact")
      | _ => false
    | _ => false)
  let fromChallengeField := nonEmptyTrim challenge.network
  let fromAccepts := match firstAccept.bind (fun v => objGet v "network") with
    | some (Json.str s) => nonEmptyTrim (some s)
    | _ => none
  let fromRaw := match raw.bind (fun v => objGet v "network") with
    | some (Json.str s) => nonEmptyTrim (some s)
    | _ => none
  let descriptor := (fromChallengeField <|> fromAccepts <|> fromRaw <|>
    (match challenge.chainId with
     | some q => if q > 0 then some ("eip155:" ++ P.numToString q) else
         canonicalNetworkForChain (some (CHAIN_ID_BY_SETTING settings.chain))
     | none => canonicalNetworkForChain (some (CHAIN_ID_BY_SETTING settings.chain)))).getD
    ("eip155:" ++ jqToString P challenge.chainId)
  let hintedVersionRaw : Option JQ :=
    (match challenge.x402Version with
     | some v => some v
     | none => none) <|>
    numField raw "x402Version" <|>
    (match firstAccept.bind (fun v => objGet v "x402Version") with
     | some (Json.num q) => some (some q)
     | _ => none) <|>
    numField raw "version"
  let hintedVersion : Option ℕ := match hintedVersionRaw with
    | some (some q) => if q = 2 then some 2 else if q = 1 then some 1 else none
    | _ => none
  let derivedVersion : ℕ := if descriptor.data.contains ':' then 2 else 1
  let version := hintedVersion.getD derivedVersion
  (descriptor, if version = 2 then 2 else 1)

/-- The base64 alphabet. -/
def b64Char (n : ℕ) : Char :=
  ("ABCDEFGHIJKLMNOPQRSTUVWXYZabcdefghijklmnopqrstuvwxyz0123456789+/".data).getD n 'A'

def encodeBase64Aux : List ℕ → List Char
  | [] => []
  | [a] => [b64Char (a / 4), b64Char (a % 4 * 16), '=', '=']
  | [a, b] => [b64Char (a / 4), b64Char (a % 4 * 16 + b / 16), b64Char (b % 16 * 4), '=']
  | a :: b :: c :: rest =>
    b64Char (a / 4) :: b64Char (a % 4 * 16 + b / 16) ::
      b64Char (b % 16 * 4 + c / 64) :: b64Char (c % 64) :: encodeBase64Aux rest

/-- `encodeBase64` (`btoa`): standard base64 over the string's character
codes (the source only feeds it ASCII JSON). -/
def encodeBase64 (s : String) : String :=
  String.mk (encodeBase64Aux (s.data.map Char.toNat))

/-- `JSON.stringify` string escaping for the characters that can occur
here. -/
def jsonEscapeChar (c : Char) : String :=
  if c = '"' then "\\\""
  else if c = '\\' then "\\\\"
  else if c = '\n' then "\\n"
  else if c = '\r' then "\\r"
  else if c = '\t' then "\\t"
  else String.singleton c

def jsonEscape (s : String) : String :=
  String.join (s.data.map jsonEscapeChar)

mutual
/-- `JSON.stringify` with insertion-ordered object keys. -/
def jsonStringify (P : JsPlatform) : Json → String
  | Json.null => "null"
  | Json.bool true => "true"
  | Json.bool false => "false"
  | Json.num q => P.numToString q
  | Json.str s => "\"" ++ jsonEscape s ++ "\""
  | Json.arr xs => "[" ++ String.intercalate "," (jsonStringifyList P xs) ++ "]"
  | Json.obj fs => "\x7b" ++ String.intercalate "," (jsonStringifyFields P fs) ++ "\x7d"

def jsonStringifyList (P : JsPlatform) : List Json → List String
  | [] => []
  | x :: xs => jsonStringify P x :: jsonStringifyList P xs

def jsonStringifyFields (P : JsPlatform) : List (String × Json) → List String
  | [] => []
  | (k, v) :: fs =>
    ("\"" ++ jsonEscape k ++ "\":" ++ jsonStringify P v) :: jsonStringifyFields P fs
end

/-- `createAuthorization`: build, sign and encode the
`TransferWithAuthorization` payload. `nowMs` is `Date.now()`, `nonce` the
hex of `randomBytes(32)`, and `sign` the outcome of constructing the signer
and calling `signTypedData` (the cryptographic library boundary). Returns
`(paymentId, xPaymentHeader)` or the thrown error. -/
def createAuthorization (P : JsPlatform) (wallet : WalletData)
    (settings : ExtensionSettings) (challenge : ChallengeDetails)
    (nowMs : ℕ) (nonce : String) (sign : Except String String) :
    Except String (String × String) :=
  match wallet.privateKey.map jsTrim with
  | none => Except.error "Wallet missing private key"
  | some pk =>
    if pk = "" then Except.error "Wallet missing private key" else
    let now : ℕ := nowMs / 1000
    let validAfter : ℤ := (now : ℤ) - 5
    let validBefore : ℤ := (now : ℤ) + 120
    match sign with
    | Except.error e => Except.error e
    | Except.ok signature =>
      let authorization := Json.obj
        [("from", Json.str wallet.address),
         ("to", Json.str challenge.seller),
         ("value", Json.str challenge.amountAtomic),
         ("validAfter", Json.str (toString validAfter)),
         ("validBefore", Json.str (toString validBefore)),
         ("nonce", Json.str nonce)]
      let payload := Json.obj
        [("authorization", authorization), ("signature", Json.str signature)]
      let nd := normalizeNetworkDescriptor P challenge settings
      let headerObj := Json.obj
        [("x402Version", Json.num (nd.2 : ℚ)),
         ("scheme", Json.str "exact"),
         ("network", Json.str nd.1),
         ("payload", payload)]
      Except.ok (challenge.challengeId, encodeBase64 (jsonStringify P headerObj))

/-! ## Payment processing and challenge handling (crypto.ts) -/

def createDefaultPolicy (origin : String) (today : String) : SitePolicy :=
  { origin := origin, allowUnderThreshold := false, mode := PolicyMode.ask,
    capUsd := none, lifetimeUsd := some 0, dailyUsd := some 0,
    lastResetISO := today }

def incrementPolicySpend (w : World) (now : ℕ) (today : String)
    (origin : String) (amountUsd : JQ) : World :=
  let r := getState w now false
  let policy0 := (assocGet r.2.policies origin).getD (createDefaultPolicy origin today)
  let policy1 := if policy0.lastResetISO ≠ today then
      { policy0 with dailyUsd := some 0, lastResetISO := today }
    else policy0
  let policy := { policy1 with
    dailyUsd := jqAdd policy1.dailyUsd amountUsd,
    lifetimeUsd := jqAdd policy1.lifetimeUsd amountUsd }
  (setState r.1 now { policies := some (assocSet r.2.policies origin policy) }).1

/-- `recordPayment`: append to history and prune the token cache. -/
def recordPayment (w : World) (now : ℕ) (record : PaymentRecord) : World :=
  (pruneJwtCache (addHistory w now record).1 now).1

def setExtensionStatus (w : World) (now : ℕ) (status : ExtensionStatus) : World :=
  (setState w now { extensionStatus := some status }).1

/-- `withExtensionStatus`: set the status, run, and reset to idle when the
status is still ours — on both the success and the throwing path. -/
def withExtensionStatus (w : World) (now : ℕ) (status : ExtensionStatus)
    (fn : World → World × Except Unit ChallengeResolution) :
    World × Except Unit ChallengeResolution :=
  let w1 := setExtensionStatus w now status
  let p := fn w1
  let r := getState p.1 now false
  let w3 := if r.2.extensionStatus = status then setExtensionStatus r.1 now ExtensionStatus.idle
    else r.1
  (w3, p.2)

/-- `processPayment`: `Except.error ()` models a thrown `WalletLockedError`
(the only exception that escapes this function; every other failure is
caught and reported as an `error` resolution). `today` is the current UTC
date string used by the policy counters. -/
def processPayment (P : JsPlatform) (w : World) (challenge : ChallengeDetails)
    (autoApproved : Bool) (now : ℕ) (today : String)
    (sign : Except String String) (nonce : String) :
    World × Except Unit ChallengeResolution :=
  let r := getState w now true
  match r.2.wallet with
  | none =>
    let res : ChallengeResolution :=
      { action := ResolutionAction.error, message := some "Wallet not configured" }
    (r.1, Except.ok res)
  | some wallet =>
    if ¬ strTruthy wallet.privateKey = true ∨ wallet.lockedUntil = 0 ∨
        wallet.lockedUntil ≤ now then
      ((setState r.1 now { wallet := some (some { wallet with
          privateKey := none, lockedUntil := 0 }) }).1,
       Except.error ())
    else
      match createAuthorization P wallet r.2.settings challenge now nonce sign with
      | Except.ok pr =>
        let record : PaymentRecord :=
          { id := pr.1, origin := challenge.origin, endpoint := challenge.endpoint,
            amountUsd := challenge.amountUsd, tokenSymbol := challenge.tokenSymbol,
            timestamp := now, status := PaymentStatus.pending,
            autoApproved := autoApproved }
        let w1 := recordPayment r.1 now record
        let w2 := incrementPolicySpend w1 now today challenge.origin challenge.amountUsd
        let renewedUntil := computeUnlockExpiry wallet.lockDurationMinutes now
        let w3 := (setState w2 now { wallet := some (some { wallet with
            lockedUntil := renewedUntil }) }).1
        let res : ChallengeResolution :=
          { action := ResolutionAction.retry,
            retryHeaders := some [("X-PAYMENT", pr.2), ("X-PAYMENT-ID", pr.1)] }
        (w3, Except.ok res)
      | Except.error e =>
        let record : PaymentRecord :=
          { id := challenge.challengeId, origin := challenge.origin,
            endpoint := challenge.endpoint, amountUsd := challenge.amountUsd,
            tokenSymbol := challenge.tokenSymbol, timestamp := now,
            status := PaymentStatus.error, autoApproved := autoApproved,
            note := some e }
        let w1 := recordPayment r.1 now record
        let w2 := (setState w1 now { wallet := some (some { wallet with
            lockedUntil := computeUnlockExpiry wallet.lockDurationMinutes now }) }).1
        let res : ChallengeResolution :=
          { action := ResolutionAction.error, message := some "Auto payment failed" }
        (w2, Except.ok res)

/-- `handleChallenge`: store the challenge, auto-pay when the policy engine
approves, and fall back to the interactive prompt (a popup window plus a
`pending` resolution) when it does not or when the wallet is locked.
`senderTabId` is the message sender's tab; `promptWindowId` is the id of the
created popup (`none` = `chrome.windows.create` failed, which is caught and
only logged). The fire-and-forget `refreshBalance` races arbitrarily with
the rest and has its errors absorbed; it is not modelled. -/
def handleChallenge (P : JsPlatform) (w : World) (challenge : ChallengeDetails)
    (now : ℕ) (today : String) (sign : Except String String) (nonce : String)
    (senderTabId : Option ℕ) (promptWindowId : Option ℕ) :
    World × ChallengeResolution :=
  let r := getState w now false
  let state0 := r.2
  let mappedChain := mapChainId challenge.chainId
  let stepped : World × ExtensionState := match mappedChain with
    | some mc =>
      if mc ≠ state0.settings.chain then
        ((updateSettings r.1 now { chain := some mc }).1,
         { state0 with settings := { state0.settings with chain := mc } })
      else (r.1, state0)
    | none => (r.1, state0)
  let w1 := stepped.1
  let state := stepped.2
  let w2 := ensureChallengeStored w1 now challenge senderTabId none
  let promptFlow := fun (wx : World) =>
    let wy := match promptWindowId with
      | some wid => ensureChallengeStored wx now challenge senderTabId (some wid)
      | none => wx
    let res : ChallengeResolution :=
      { action := ResolutionAction.pending, challengeId := some challenge.challengeId }
    (wy, res)
  if shouldAutoApprove state challenge now then
    let pr := withExtensionStatus w2 now ExtensionStatus.paying
      (fun wx => processPayment P wx challenge true now today sign nonce)
    match pr.2 with
    | Except.ok res => (pr.1, res)
    | Except.error _ => promptFlow pr.1
  else promptFlow w2

inductive Decision | approve | defer
deriving DecidableEq, Repr

/-- Modelled from the spec's words (§4.3 decision rule): the seven-step
precedence `decide(settings, policy?, spendHistory, challenge)`. -/
def decideSpec (settings : ExtensionSettings) (policy : Option SitePolicy)
    (spendHistory : List PaymentRecord) (challenge : ChallengeDetails)
    (now : ℕ) : Decision :=
  if (policy.map (·.mode)) = some PolicyMode.deny then .defer
  else if jqGt challenge.amountUsd settings.thresholdUsd then .defer
  else if settings.promptRequired then .defer
  else if policy.isSome ∧ (policy.map (·.allowUnderThreshold)) = some false then .defer
  else if (policy.bind (·.capUsd)).isSome ∧
      jqGt ((policy.bind (·.capUsd)).getD none) (some 0) ∧
      jqGt (jqAdd ((policy.map (·.lifetimeUsd)).getD none) challenge.amountUsd)
        ((policy.bind (·.capUsd)).getD none) then .defer
  else if jqGt settings.dailyAutoCapUsd (some 0) ∧
      jqGt (jqAdd (spentInLast24h spendHistory now) challenge.amountUsd)
        settings.dailyAutoCapUsd then .defer
  else .approve

/-! ## Concrete sample data for witnesses and counterexamples -/

def sampleChallenge : ChallengeDetails :=
  { amountUsd := some (1/100), tokenSymbol := "USDC", challengeId := "ch-1",
    endpoint := "https://api.example.com/data", origin := "https://example.com",
    rawHeaders := [], method := "GET", chainId := some 137,
    tokenAddress := Json.str "0x3c499c542cEF5E3811e1192ce70d8cC03d5c3359",
    seller := "0x1111111111111111111111111111111111111111",
    amountAtomic := "10000" }

/-- A state whose auto-approved successful spending in the last 24h (2 USD)
already exceeds the 1 USD default daily auto-cap. -/
def c6State : ExtensionState :=
  { INITIAL_STATE with
    history := [{ id := "p1", origin := "https://other.example",
                  endpoint := "https://other.example/x", amountUsd := some 2,
                  tokenSymbol := "USDC", timestamp := 1000000,
                  status := PaymentStatus.success, autoApproved := true }] }

def c2Wallet : WalletData :=
  { address := "0xAaaaAaaaAaaaAaaaAaaaAaaaAaaaAaaaAaaaAaaa",
    encryptedPrivateKey := some "ciphertext", encryptionSalt := some "salt",
    encryptionIv := some "iv", privateKey := some "0xplaintextsecret",
    lockDurationMinutes := some (some 15), lockedUntil := 5 }

def c2World : World := { stored := some INITIAL_STATE }

def c5Entry : PendingChallenge := { challenge := sampleChallenge, createdAt := 0 }

def c5World : World :=
  { stored := some { INITIAL_STATE with pendingChallenges := [("c1", c5Entry)] } }

def c5wEntry : PendingChallenge := { challenge := sampleChallenge, createdAt := 600000 }

def c5wWorld : World :=
  { stored := some { INITIAL_STATE with pendingChallenges := [("c9", c5wEntry)] } }

def sampleInfo : RequestInfo :=
  { origin := "https://example.com", endpoint := "https://example.com/api",
    method := "GET" }

def c8Json : String :=
  "\x7b\"seller\":\"0xSeller\",\"tokenAddress\":\"0xToken\",\"chainId\":137,\"amount\":\"42\"\x7d"

/-- A platform whose `jsonParse` table agrees with `JSON.parse` on the one
document this witness feeds it. -/
def c8Platform : JsPlatform :=
  { jsonParse := fun s => if s = c8Json then
      some (Json.obj [("seller", Json.str "0xSeller"),
        ("tokenAddress", Json.str "0xToken"),
        ("chainId", Json.num 137), ("amount", Json.str "42")])
    else none,
    atob := fun _ => none, toNumber := fun _ => none,
    numToString := fun _ => "", randomUUID := "uuid-8" }

def c8Headers : List (String × String) :=
  [("x-payment-challenge", c8Json), ("x-402-id", "id-8"),
   ("x-402-address", "0xLegacySeller"),
   ("x-402-token-address", "0xLegacyToken"),
   ("x-402-amount-atomic", "99")]

def c8Expected : ChallengeDetails :=
  { amountUsd := some 0, tokenSymbol := "USDC", challengeId := "id-8",
    endpoint := sampleInfo.endpoint, origin := sampleInfo.origin,
    method := sampleInfo.method, rawHeaders := c8Headers, chainId := some 137,
    tokenAddress := Json.str "0xToken", seller := "0xSeller",
    amountAtomic := "42",
    rawChallenge := some (Json.obj [("seller", Json.str "0xSeller"),
      ("tokenAddress", Json.str "0xToken"),
      ("chainId", Json.num 137), ("amount", Json.str "42")]) }

def c10Platform : JsPlatform :=
  { jsonParse := fun _ => none, atob := fun _ => none, toNumber := fun _ => none,
    numToString := fun _ => "", randomUUID := "uuid-10" }

def c10Headers : List (String × String) :=
  [("x-402-address", "0xSeller10"), ("x-402-token-address", "0xToken10"),
   ("x-402-amount-atomic", "77")]

def c10Expected : ChallengeDetails :=
  { amountUsd := some 0, tokenSymbol := "USDC", challengeId := "uuid-10",
    endpoint := sampleInfo.endpoint, origin := sampleInfo.origin,
    method := sampleInfo.method, rawHeaders := c10Headers, chainId := some 137,
    tokenAddress := Json.str "0xToken10", seller := "0xSeller10",
    amountAtomic := "77" }

def c3Json : String :=
  "\x7b\"seller\":\"\",\"tokenAddress\":\"0xToken\",\"chainId\":137,\"amount\":\"5\"\x7d"

/-- A platform whose `jsonParse` table agrees with `JSON.parse` on the one
document this counterexample feeds it (an empty `seller` string). -/
def c3Platform : JsPlatform :=
  { jsonParse := fun s => if s = c3Json then
      some (Json.obj [("seller", Json.str ""),
        ("tokenAddress", Json.str "0xToken"),
        ("chainId", Json.num 137), ("amount", Json.str "5")])
    else none,
    atob := fun _ => none, toNumber := fun _ => none,
    numToString := fun _ => "", randomUUID := "uuid-3" }

def c3Headers : List (String × String) :=
  [("x-payment-challenge", c3Json), ("x-402-id", "id-3")]

def c3Expected : ChallengeDetails :=
  { amountUsd := some 0, tokenSymbol := "USDC", challengeId := "id-3",
    endpoint := sampleInfo.endpoint, origin := sampleInfo.origin,
    method := sampleInfo.method, rawHeaders := c3Headers, chainId := some 137,
    tokenAddress := Json.str "0xToken", seller := "", amountAtomic := "5",
    rawChallenge := some (Json.obj [("seller", Json.str ""),
      ("tokenAddress", Json.str "0xToken"),
      ("chainId", Json.num 137), ("amount", Json.str "5")]) }

def b3Headers : List (String × String) := [("content-type", "application/json")]

def b3Body : String :=
  "\x7b\"accepts\":[\x7b\"scheme\":\"exact\",\"maxAmountRequired\":\"5000\",\"asset\":\"0xToken\",\"payTo\":\"0xSeller\",\"network\":\"eip155:137\"\x7d],\"amountUsd\":1\x7d"

def b3BodyJson : Json :=
  Json.obj [("accepts", Json.arr [Json.obj
    [("scheme", Json.str "exact"),
     ("maxAmountRequired", Json.str "5000"),
     ("asset", Json.str "0xToken"),
     ("payTo", Json.str "0xSeller"),
     ("network", Json.str "eip155:137")]]),
    ("amountUsd", Json.num 1)]

/-- A platform whose `jsonParse` and `toNumber` tables agree with
`JSON.parse` and `Number` on the inputs this witness feeds them. -/
def b3Platform : JsPlatform :=
  { jsonParse := fun s => if s = b3Body then some b3BodyJson else none,
    atob := fun _ => none,
    toNumber := fun s => if s = "137" then some 137 else none,
    numToString := fun _ => "", randomUUID := "uuid-b3" }

def b3Expected : ChallengeDetails :=
  { amountUsd := some 1, tokenSymbol := "USDC", challengeId := "uuid-b3",
    endpoint := sampleInfo.endpoint, origin := sampleInfo.origin,
    method := sampleInfo.method, rawHeaders := b3Headers, chainId := some 137,
    tokenAddress := Json.str "0xToken", seller := "0xSeller",
    amountAtomic := "5000", tokenDecimals := some (some 6),
    rawChallenge := some b3BodyJson }

/-- A configured wallet in storage with no valid runtime unlock: the
precondition of the `WalletLocked` path. -/
def LockedConfigured (w : World) (now : ℕ) : Prop :=
  ((w.stored.bind (·.wallet)).isSome = true) ∧ ¬ runtimeUnlocked w now

def c7Wallet : WalletData :=
  { address := "0xFrom", encryptedPrivateKey := some "ct",
    encryptionSalt := some "st", encryptionIv := some "iv",
    lockDurationMinutes := some (some 15), lockedUntil := 0 }

def c7World : World :=
  { stored := some { INITIAL_STATE with wallet := some c7Wallet } }

def c9World : World :=
  { stored := some { INITIAL_STATE with wallet := some c7Wallet },
    runtimePrivateKey := some "0xprivkey", runtimeLockedUntil := 1000000 }

def c4Wallet : WalletData :=
  { address := "0xFrom", privateKey := some "0xprivkey",
    lockedUntil := 100000, lockDurationMinutes := some (some 15) }

/-- A platform whose `numToString` agrees with JS on the two numbers this
witness renders (`137` and the protocol version `2`). -/
def c4Platform : JsPlatform :=
  { jsonParse := fun _ => none, atob := fun _ => none,
    toNumber := fun _ => none,
    numToString := fun q => if q = 137 then "137" else if q = 2 then "2" else "",
    randomUUID := "uuid-4" }

/-! ### Storage lemmas -/

theorem sanitize_no_key (ow : Option WalletData) :
    (sanitizeWalletForPersist ow).bind (·.privateKey) = none := by
  cases ow <;> rfl

theorem applyRuntimeWallet_fst_stored (w : World) (st : ExtensionState)
    (b : Bool) (now : ℕ) : (applyRuntimeWallet w st b now).1.stored = w.stored := by
  rcases hw : st.wallet with _ | wt <;> simp [applyRuntimeWallet, hw] <;>
    split_ifs <;> rfl

theorem applyRuntimeWallet_snd_pending (w : World) (st : ExtensionState)
    (b : Bool) (now : ℕ) :
    (applyRuntimeWallet w st b now).2.pendingChallenges = st.pendingChallenges := by
  rcases hw : st.wallet with _ | wt <;> simp [applyRuntimeWallet, hw] <;>
    split_ifs <;> rfl

/-- The pending-challenge map read by `getState` is the stored one. -/
theorem getState_snd_pending (w : World) (now : ℕ) (b : Bool) :
    (getState w now b).2.pendingChallenges =
      (w.stored.map (·.pendingChallenges)).getD [] := by
  rcases hs : w.stored with _ | s
  · simp [getState, hs, INITIAL_STATE]
  · rcases hw : s.wallet with _ | wt
    · simp [getState, hs, hw, applyRuntimeWallet_snd_pending]
    · by_cases hk : strTruthy wt.privateKey = true <;>
        simp [getState, hs, hw, hk, applyRuntimeWallet_snd_pending]

/-- After any `getState`, storage is populated and its pending-challenge map
is unchanged (the repair path only touches the wallet). -/
theorem getState_fst_pending (w : World) (now : ℕ) (b : Bool) :
    ((getState w now b).1.stored.map (·.pendingChallenges)) =
      some ((w.stored.map (·.pendingChallenges)).getD []) := by
  rcases hs : w.stored with _ | s
  · simp [getState, hs, INITIAL_STATE]
  · rcases hw : s.wallet with _ | wt
    · simp [getState, hs, hw, applyRuntimeWallet_fst_stored]
    · by_cases hk : strTruthy wt.privateKey = true <;>
        simp [getState, hs, hw, hk, applyRuntimeWallet_fst_stored]

theorem setState_snd_pending (w : World) (now : ℕ) (u : StateUpdate)
    (p : List (String × PendingChallenge)) (h : u.pendingChallenges = some p) :
    (setState w now u).2.pendingChallenges = p := by
  simp [setState, h]

theorem setState_fst_pending (w : World) (now : ℕ) (u : StateUpdate)
    (p : List (String × PendingChallenge)) (h : u.pendingChallenges = some p) :
    ((setState w now u).1.stored.map (·.pendingChallenges)) = some p := by
  simp [setState, h]

/-- An association-list entry that survives a filter is still the first hit. -/
theorem assocGet_filter (p : String × α → Bool) (k : String) (v : α) :
    ∀ l : List (String × α), assocGet l k = some v → p (k, v) = true →
      assocGet (l.filter p) k = some v := by
  intro l
  induction l with
  | nil => intro h _; simp [assocGet] at h
  | cons a t ih =>
    intro h hp
    by_cases hk : a.1 = k
    · have ha : a = (k, v) := by
        rw [assocGet, if_pos hk] at h
        exact Prod.ext hk (Option.some_injective _ h)
      subst ha
      simp [List.filter_cons, hp, assocGet]
    · rw [assocGet, if_neg hk] at h
      by_cases hpa : p a = true
      · simp only [List.filter_cons, hpa, if_pos]
        rw [assocGet, if_neg hk]
        exact ih h hp
      · simp only [List.filter_cons, hpa, if_neg, Bool.false_eq_true,
          not_false_iff]
        exact ih h hp

/-- With unique keys, filtering out the sole entry for `k` makes `k` absent. -/
theorem assocGet_filter_nodup (p : String × α → Bool) (k : String) (v : α) :
    ∀ l : List (String × α), (l.map Prod.fst).Nodup →
      assocGet l k = some v → p (k, v) = false →
      assocGet (l.filter p) k = none := by
  intro l
  induction l with
  | nil => intro _ h _; simp [assocGet] at h
  | cons a t ih =>
    intro hnd h hp
    simp only [List.map_cons, List.nodup_cons] at hnd
    by_cases hk : a.1 = k
    · have ha : a = (k, v) := by
        rw [assocGet, if_pos hk] at h
        exact Prod.ext hk (Option.some_injective _ h)
      subst ha
      have habsent : ∀ l' : List (String × α), (∀ q ∈ l', ¬ q.1 = k) →
          assocGet l' k = none := by
        intro l'
        induction l' with
        | nil => intro _; rfl
        | cons b t' ih' =>
          intro hall
          rw [assocGet, if_neg (hall b (List.mem_cons_self b t'))]
          exact ih' (fun q hq => hall q (List.mem_cons_of_mem b hq))
      simp only [List.filter_cons, hp, Bool.false_eq_true, if_neg,
        not_false_iff]
      refine habsent _ (fun q hq hqk => ?_)
      have hmem : q.1 ∈ t.map Prod.fst :=
        List.mem_map_of_mem Prod.fst (List.mem_of_mem_filter hq)
      rw [hqk] at hmem
      exact hnd.1 hmem
    · rw [assocGet, if_neg hk] at h
      by_cases hpa : p a = true
      · simp only [List.filter_cons, hpa, if_pos]
        rw [assocGet, if_neg hk]
        exact ih hnd.2 h hp
      · simp only [List.filter_cons, hpa, Bool.false_eq_true, if_neg,
          not_false_iff]
        exact ih hnd.2 h hp

theorem assocGet_mem (k : String) (v : α) :
    ∀ l : List (String × α), assocGet l k = some v → (k, v) ∈ l := by
  intro l
  induction l with
  | nil => intro h; simp [assocGet] at h
  | cons a t ih =>
    intro h
    by_cases hk : a.1 = k
    · have ha : a = (k, v) := by
        rw [assocGet, if_pos hk] at h
        exact Prod.ext hk (Option.some_injective _ h)
      simp [ha]
    · rw [assocGet, if_neg hk] at h
      exact List.mem_cons_of_mem a (ih h)

/-- C1: the implementation's auto-approval decision agrees with the spec's
seven-step precedence at every input. -/
theorem c1_decide_follows_precedence (state : ExtensionState)
    (challenge : ChallengeDetails) (now : ℕ) :
    shouldAutoApprove state challenge now = true ↔
      decideSpec state.settings (assocGet state.policies challenge.origin)
        state.history challenge now = Decision.approve := by
  unfold shouldAutoApprove decideSpec
  rcases hp : assocGet state.policies challenge.origin with _ | p
  · split_ifs <;> simp_all
  · rcases hc : p.capUsd with _ | c
    · split_ifs <;> simp_all
    · split_ifs <;> (try simp_all) <;>
        cases hg : jqGt c (some 0) <;> simp_all

theorem jqGt_eq_false_of_jqLe (a b : JQ) (h : jqLe a b = true) :
    jqGt a b = false := by
  cases a with
  | none => rfl
  | some qa =>
    cases b with
    | none => rfl
    | some qb =>
      simp [jqLe] at h
      simp [jqGt]
      exact h

/-- Every read through `getPendingChallenges` observes exactly the entries
that pass the retention test, and storage holds the same map afterwards. -/
theorem getPendingChallenges_spec (w : World) (s : ExtensionState) (now : ℕ)
    (hw : w.stored = some s) :
    (getPendingChallenges w now).2 =
      s.pendingChallenges.filter (challengeFresh now) ∧
    ((getPendingChallenges w now).1.stored.map (·.pendingChallenges)) =
      some (s.pendingChallenges.filter (challengeFresh now)) := by
  have hsrc : (getState w now false).2.pendingChallenges = s.pendingChallenges := by
    rw [getState_snd_pending, hw]; rfl
  have hfst : ((getState w now false).1.stored.map (·.pendingChallenges)) =
      some s.pendingChallenges := by
    rw [getState_fst_pending, hw]; rfl
  simp only [getPendingChallenges, pruneExpiredChallenges, hsrc]
  by_cases hch :
      s.pendingChallenges.any (fun p => !(challengeFresh now p)) = true
  · simp only [hch, if_pos]
    constructor
    · rw [getState_snd_pending]
      rw [setState_fst_pending _ _ _ _ rfl]
      rfl
    · rw [getState_fst_pending]
      rw [setState_fst_pending _ _ _ _ rfl]
      rfl
  · simp only [hch, if_neg, Bool.false_eq_true, not_false_iff]
    have hall : s.pendingChallenges.filter (challengeFresh now) =
        s.pendingChallenges := by
      apply List.filter_eq_self.mpr
      intro a ha
      cases hfa : challengeFresh now a
      · exfalso
        apply hch
        rw [List.any_eq_true]
        exact ⟨a, ha, by simp [hfa]⟩
      · rfl
    rw [hall]
    constructor
    · rw [getState_snd_pending, hfst]; rfl
    · rw [getState_fst_pending, hfst]; rfl

/-- C2 counterexample: `setState` persists a wallet whose `lockedUntil` is
`5`, not `0` — the claim that only `lockedUntil = 0` reaches persistence
fails on this write. -/
theorem c2_counterexample :
    ((setState c2World 1 { wallet := some (some c2Wallet) }).1.stored.bind
        (·.wallet)).map (·.lockedUntil) = some 5 ∧ (5 : ℕ) ≠ 0 :=
  ⟨rfl, by decide⟩

/-- C2 (amended): every state written to the persisted store by `setState`
(hence by configure, unlock, and payment processing, which all write through
it) carries a wallet record without the decrypted private key; `lockedUntil`,
however, is persisted as given rather than forced to `0`. -/
theorem c2_amended (w : World) (now : ℕ) (u : StateUpdate) :
    (((setState w now u).1.stored.bind (·.wallet)).bind (·.privateKey)) = none := by
  simp only [setState, Option.bind_some]
  exact sanitize_no_key _

/-- C5 counterexample: an entry created at `t0 = 0` is still returned by
`get` at `t0 + 11` minutes (its age exceeds the TTL, but a `createdAt` of
`0` is falsy and never pruned), so the claim fails for that entry. -/
theorem c5_counterexample :
    11 * 60 * 1000 - c5Entry.createdAt > PENDING_CHALLENGE_TTL_MS ∧
    assocGet (getPendingChallenges c5World (11 * 60 * 1000)).2 "c1" =
      some c5Entry :=
  ⟨by decide, rfl⟩

/-- C5 (amended): every read prunes all entries with truthy (nonzero)
`createdAt` whose age exceeds the 10-minute TTL: an entry created at `t0` is
returned at `t0 + 9` minutes, and when `t0 ≠ 0` it is reported absent and
removed from the store at `t0 + 11` minutes. Entries with `createdAt = 0`
are never pruned. -/
theorem c5_amended (w : World) (s : ExtensionState) (id : String)
    (e : PendingChallenge)
    (hnd : (s.pendingChallenges.map Prod.fst).Nodup)
    (hw : w.stored = some s)
    (he : assocGet s.pendingChallenges id = some e) :
    assocGet (getPendingChallenges w (e.createdAt + 9 * 60 * 1000)).2 id = some e ∧
    (e.createdAt ≠ 0 →
      assocGet (getPendingChallenges w (e.createdAt + 11 * 60 * 1000)).2 id = none ∧
      ((getPendingChallenges w (e.createdAt + 11 * 60 * 1000)).1.stored.map
        (fun st => assocGet st.pendingChallenges id)) = some none) := by
  constructor
  · have h9 := getPendingChallenges_spec w s (e.createdAt + 9 * 60 * 1000) hw
    rw [h9.1]
    apply assocGet_filter _ _ _ _ he
    simp [challengeFresh, PENDING_CHALLENGE_TTL_MS]
  · intro h0
    have h11 := getPendingChallenges_spec w s (e.createdAt + 11 * 60 * 1000) hw
    have hstale : challengeFresh (e.createdAt + 11 * 60 * 1000) (id, e) = false := by
      simp [challengeFresh, PENDING_CHALLENGE_TTL_MS, h0]
    have habsent : assocGet
        (s.pendingChallenges.filter (challengeFresh (e.createdAt + 11 * 60 * 1000)))
        id = none :=
      assocGet_filter_nodup _ _ _ _ hnd he hstale
    constructor
    · rw [h11.1]
      exact habsent
    · rcases ho : (getPendingChallenges w (e.createdAt + 11 * 60 * 1000)).1.stored
        with _ | st
      · rw [ho] at h11
        simp at h11
      · have hpend : st.pendingChallenges =
            s.pendingChallenges.filter (challengeFresh (e.createdAt + 11 * 60 * 1000)) := by
          have h2 := h11.2
          rw [ho] at h2
          simpa using h2
        show some (assocGet st.pendingChallenges id) = some none
        rw [hpend]
        exact congrArg some habsent

/-- Witness for C5 (amended) at a concrete one-entry store created at
`t0 = 600000`. -/
theorem c5_amended_witness :
    assocGet (getPendingChallenges c5wWorld (600000 + 9 * 60 * 1000)).2 "c9" =
      some c5wEntry ∧
    assocGet (getPendingChallenges c5wWorld (600000 + 11 * 60 * 1000)).2 "c9" =
      none := by
  have h := c5_amended c5wWorld
    { INITIAL_STATE with pendingChallenges := [("c9", c5wEntry)] }
    "c9" c5wEntry (by decide) rfl rfl
  exact ⟨h.1, (h.2 (by decide)).1⟩

/-- C6 counterexample: all of the claim's premises hold (amount within
threshold, no site policy for the origin, no prompt requirement), yet the
decision is defer, because the global `dailyAutoCapUsd` (1 USD) is already
exhausted by earlier auto-approved successful payments — a condition the
claim's premises do not exclude. -/
theorem c6_counterexample :
    jqLe sampleChallenge.amountUsd c6State.settings.thresholdUsd = true ∧
    assocGet c6State.policies sampleChallenge.origin = none ∧
    c6State.settings.promptRequired = false ∧
    shouldAutoApprove c6State sampleChallenge 1000000 = false := by
  refine ⟨?_, rfl, rfl, ?_⟩
  · norm_num [sampleChallenge, c6State, INITIAL_STATE, defaultSettings, jqLe]
  · norm_num [shouldAutoApprove, c6State, sampleChallenge, INITIAL_STATE,
      defaultSettings, assocGet, spentInLast24h, jqGt, jqAdd, jqLe]

/-- C6 (amended): with amount within threshold, no deny policy,
`promptRequired` off, either no site policy or an allowing one with its
lifetime cap unexceeded, and additionally the global daily auto-cap not
exceeded, the decision is approve. -/
theorem c6_amended (state : ExtensionState) (challenge : ChallengeDetails)
    (now : ℕ)
    (hthr : jqLe challenge.amountUsd state.settings.thresholdUsd = true)
    (hprompt : state.settings.promptRequired = false)
    (hpol : assocGet state.policies challenge.origin = none ∨
      ∃ p, assocGet state.policies challenge.origin = some p ∧
        p.mode ≠ PolicyMode.deny ∧ p.allowUnderThreshold = true ∧
        (p.capUsd = none ∨ jqGt (p.capUsd.getD none) (some 0) = false ∨
          jqGt (jqAdd p.lifetimeUsd challenge.amountUsd) (p.capUsd.getD none) = false))
    (hdaily : jqGt state.settings.dailyAutoCapUsd (some 0) = false ∨
      jqGt (jqAdd (spentInLast24h state.history now) challenge.amountUsd)
        state.settings.dailyAutoCapUsd = false) :
    shouldAutoApprove state challenge now = true := by
  have hgt := jqGt_eq_false_of_jqLe _ _ hthr
  unfold shouldAutoApprove
  rcases hpol with hnone | ⟨p, hp, hmode, hallow, hcap⟩
  · rcases hdaily with hd | hd <;> simp [hnone, hgt, hprompt, hd]
  · rcases hdaily with hd | hd <;> rcases hcap with hc | hc | hc <;>
      simp [hp, hmode, hallow, hgt, hprompt, hd, hc]

/-- Witness for C6 (amended) at the initial state. -/
theorem c6_amended_witness :
    shouldAutoApprove INITIAL_STATE sampleChallenge 0 = true :=
  c6_amended INITIAL_STATE sampleChallenge 0
    (by norm_num [sampleChallenge, INITIAL_STATE, defaultSettings, jqLe])
    rfl (Or.inl rfl)
    (Or.inr (by norm_num [sampleChallenge, INITIAL_STATE, defaultSettings,
      spentInLast24h, jqGt, jqAdd]))

/-- C4: with a valid transient secret and successful signing, the built
authorization carries from = wallet address, to = seller, value =
amountAtomic, validAfter = now − 5 s, validBefore = now + 120 s (a
125-second window) and the supplied 32-byte random nonce, and the emitted
retry header is the base64 encoding of the JSON object
`{x402Version, scheme: "exact", network, payload: {authorization, signature}}`. -/
theorem c4_authorization_shape (P : JsPlatform) (wallet : WalletData)
    (settings : ExtensionSettings) (challenge : ChallengeDetails)
    (nowMs : ℕ) (nonce sig : String) (pk : String)
    (hpk : wallet.privateKey = some pk) (hne : jsTrim pk ≠ "") :
    createAuthorization P wallet settings challenge nowMs nonce (Except.ok sig) =
      Except.ok (challenge.challengeId,
        encodeBase64 (jsonStringify P (Json.obj
          [("x402Version",
            Json.num ((normalizeNetworkDescriptor P challenge settings).2 : ℚ)),
           ("scheme", Json.str "exact"),
           ("network", Json.str (normalizeNetworkDescriptor P challenge settings).1),
           ("payload", Json.obj
             [("authorization", Json.obj
               [("from", Json.str wallet.address),
                ("to", Json.str challenge.seller),
                ("value", Json.str challenge.amountAtomic),
                ("validAfter", Json.str (toString ((nowMs / 1000 : ℕ) - 5 : ℤ))),
                ("validBefore", Json.str (toString ((nowMs / 1000 : ℕ) + 120 : ℤ))),
                ("nonce", Json.str nonce)]),
              ("signature", Json.str sig)])]))) ∧
    ((nowMs / 1000 : ℕ) + 120 : ℤ) - ((nowMs / 1000 : ℕ) - 5 : ℤ) = 125 := by
  constructor
  · simp only [createAuthorization, hpk, Option.map_some']
    rw [if_neg hne]
  · ring

/-- Witness for C4 at concrete inputs. -/
theorem c4_witness :
    createAuthorization c4Platform c4Wallet defaultSettings sampleChallenge
        1700000000000 "0xnonce" (Except.ok "0xsig") =
      Except.ok (sampleChallenge.challengeId,
        encodeBase64 (jsonStringify c4Platform (Json.obj
          [("x402Version",
            Json.num ((normalizeNetworkDescriptor c4Platform sampleChallenge
              defaultSettings).2 : ℚ)),
           ("scheme", Json.str "exact"),
           ("network", Json.str (normalizeNetworkDescriptor c4Platform
             sampleChallenge defaultSettings).1),
           ("payload", Json.obj
             [("authorization", Json.obj
               [("from", Json.str c4Wallet.address),
                ("to", Json.str sampleChallenge.seller),
                ("value", Json.str sampleChallenge.amountAtomic),
                ("validAfter", Json.str (toString ((1700000000000 / 1000 : ℕ) - 5 : ℤ))),
                ("validBefore", Json.str (toString ((1700000000000 / 1000 : ℕ) + 120 : ℤ))),
                ("nonce", Json.str "0xnonce")]),
              ("signature", Json.str "0xsig")])]))) :=
  (c4_authorization_shape c4Platform c4Wallet defaultSettings sampleChallenge
    1700000000000 "0xnonce" "0xsig" "0xprivkey" rfl (by decide)).1

/-- C8: when the dedicated challenge header is present and parses to a
record, that record is returned — even when a complete legacy flat-header
set (seller, token address, atomic amount) is also present. -/
theorem c8_dedicated_header_precedence (P : JsPlatform)
    (headers : List (String × String)) (info : RequestInfo) (v : String)
    (c : ChallengeDetails)
    (hv : assocGet headers "x-payment-challenge" = some v)
    (hp : parseChallengeValue P v info headers
        ((assocGet headers "x-402-id").getD P.randomUUID) = some c)
    (hs : strTruthy (assocGet headers "x-402-address") = true)
    (ht : strTruthy (assocGet headers "x-402-token-address") = true)
    (ha : strTruthy (assocGet headers "x-402-amount-atomic") = true) :
    parseChallengeHeaders P headers info = some c := by
  have hvne : v ≠ "" := by
    intro h
    rw [h] at hp
    have hnone : parseChallengeValue P "" info headers
        ((assocGet headers "x-402-id").getD P.randomUUID) = none := rfl
    rw [hnone] at hp
    exact Option.noConfusion hp
  simp only [parseChallengeHeaders, hv]
  rw [if_pos hvne, hp]

/-- C10: with no usable dedicated or auth challenge and legacy headers
supplying seller, token address and atomic amount but no chain and no USD
headers, the parser still returns a record with `chainId = 137` and
`amountUsd = 0`. -/
theorem c10_legacy_defaults (P : JsPlatform) (headers : List (String × String))
    (info : RequestInfo)
    (hjson : ∀ v, assocGet headers "x-payment-challenge" = some v → v ≠ "" →
      parseChallengeValue P v info headers
        ((assocGet headers "x-402-id").getD P.randomUUID) = none)
    (hauth : ∀ v, assocGet headers "www-authenticate" = some v → v ≠ "" →
      fromAuthenticateChallenge P v info headers
        ((assocGet headers "x-402-id").getD P.randomUUID) = none)
    (hs : strTruthy (assocGet headers "x-402-address" <|>
      assocGet headers "x-payment-seller") = true)
    (ht : strTruthy (assocGet headers "x-402-token-address" <|>
      assocGet headers "x-payment-token-address") = true)
    (ha : strTruthy (assocGet headers "x-402-amount-atomic" <|>
      assocGet headers "x-payment-amount") = true)
    (hc1 : assocGet headers "x-402-chain" = none)
    (hc2 : assocGet headers "x-payment-chain" = none)
    (hu1 : assocGet headers "x-402-amount" = none)
    (hu2 : assocGet headers "x-payment-amount-usd" = none) :
    ∃ c, parseChallengeHeaders P headers info = some c ∧
      c.chainId = some 137 ∧ c.amountUsd = some 0 := by
  rcases hj : assocGet headers "x-payment-challenge" with _ | v <;>
    rcases hw : assocGet headers "www-authenticate" with _ | u
  · simp only [parseChallengeHeaders, parseLegacyHeaders, hj, hw, hu1, hu2, hc1,
      hc2, Option.none_orElse]
    rw [if_neg (by simp [hs]), if_neg (by simp [ht]), if_neg (by simp [ha])]
    exact ⟨_, rfl, rfl, rfl⟩
  · simp only [parseChallengeHeaders, parseLegacyHeaders, hj, hw, hu1, hu2, hc1,
      hc2, Option.none_orElse]
    by_cases hu : u = ""
    · rw [if_neg (by simp [hu])]
      rw [if_neg (by simp [hs]), if_neg (by simp [ht]), if_neg (by simp [ha])]
      exact ⟨_, rfl, rfl, rfl⟩
    · rw [if_pos hu, hauth u hw hu]
      rw [if_neg (by simp [hs]), if_neg (by simp [ht]), if_neg (by simp [ha])]
      exact ⟨_, rfl, rfl, rfl⟩
  · simp only [parseChallengeHeaders, parseLegacyHeaders, hj, hw, hu1, hu2, hc1,
      hc2, Option.none_orElse]
    by_cases hv : v = ""
    · rw [if_neg (by simp [hv])]
      rw [if_neg (by simp [hs]), if_neg (by simp [ht]), if_neg (by simp [ha])]
      exact ⟨_, rfl, rfl, rfl⟩
    · rw [if_pos hv, hjson v hj hv]
      rw [if_neg (by simp [hs]), if_neg (by simp [ht]), if_neg (by simp [ha])]
      exact ⟨_, rfl, rfl, rfl⟩
  · simp only [parseChallengeHeaders, parseLegacyHeaders, hj, hw, hu1, hu2, hc1,
      hc2, Option.none_orElse]
    by_cases hv : v = ""
    · rw [if_neg (by simp [hv])]
      by_cases hu : u = ""
      · rw [if_neg (by simp [hu])]
        rw [if_neg (by simp [hs]), if_neg (by simp [ht]), if_neg (by simp [ha])]
        exact ⟨_, rfl, rfl, rfl⟩
      · rw [if_pos hu, hauth u hw hu]
        rw [if_neg (by simp [hs]), if_neg (by simp [ht]), if_neg (by simp [ha])]
        exact ⟨_, rfl, rfl, rfl⟩
    · rw [if_pos hv, hjson v hj hv]
      by_cases hu : u = ""
      · rw [if_neg (by simp [hu])]
        rw [if_neg (by simp [hs]), if_neg (by simp [ht]), if_neg (by simp [ha])]
        exact ⟨_, rfl, rfl, rfl⟩
      · rw [if_pos hu, hauth u hw hu]
        rw [if_neg (by simp [hs]), if_neg (by simp [ht]), if_neg (by simp [ha])]
        exact ⟨_, rfl, rfl, rfl⟩

/-- Witness for C8: the dedicated header's record (seller `0xSeller`) wins
over the complete legacy set (seller `0xLegacySeller`). -/
theorem c8_witness :
    parseChallengeHeaders c8Platform c8Headers sampleInfo = some c8Expected ∧
    c8Expected.seller ≠ "0xLegacySeller" :=
  ⟨c8_dedicated_header_precedence c8Platform c8Headers sampleInfo c8Json
    c8Expected rfl rfl rfl rfl rfl, by decide⟩

/-- Witness for C10 at concrete legacy-only headers. -/
theorem c10_witness :
    ∃ c, parseChallengeHeaders c10Platform c10Headers sampleInfo = some c ∧
      c.chainId = some 137 ∧ c.amountUsd = some 0 :=
  c10_legacy_defaults c10Platform c10Headers sampleInfo
    (fun _ hv _ => Option.noConfusion hv) (fun _ hv _ => Option.noConfusion hv)
    rfl rfl rfl rfl rfl rfl rfl

/-- C3 counterexample: the JSON-challenge path accepts a document whose
`seller` is the empty string (the guard only checks `typeof seller ===
"string"`), so the parser returns a record with an empty seller address
instead of reporting absent. -/
theorem c3_counterexample :
    parseChallengeHeaders c3Platform c3Headers sampleInfo = some c3Expected ∧
    c3Expected.seller = "" :=
  ⟨rfl, rfl⟩

theorem strTruthy_getD (o : Option String) (h : strTruthy o = true) :
    o.getD "" ≠ "" := by
  cases o with
  | none => simp [strTruthy] at h
  | some s =>
    simp only [strTruthy, decide_eq_true_eq] at h
    simpa using h

/-- Any record produced by the JSON-challenge path has a truthy chain id and
a truthy token address (but its seller may be any string, including the
empty one). -/
theorem fromJsonChallenge_guarantees (P : JsPlatform) (json : String)
    (info : RequestInfo) (raw : List (String × String)) (fid : String)
    (c : ChallengeDetails)
    (h : fromJsonChallenge P json info raw fid = some c) :
    jqTruthy c.chainId = true ∧ jsTruthy (some c.tokenAddress) = true := by
  rcases hp : P.jsonParse json with _ | parsed <;>
    simp only [fromJsonChallenge, hp] at h
  · exact Option.noConfusion h
  · rcases parsed with _ | b | q | s | xs | fields <;> simp only [] at h
    case null => exact Option.noConfusion h
    case bool => exact Option.noConfusion h
    case num => exact Option.noConfusion h
    case str => exact Option.noConfusion h
    case arr =>
      simp [objGet, jsNumberOfJson, jqTruthy] at h
    case obj =>
      simp only [objGet] at h
      split_ifs at h with hTriv hChain hTok
      all_goals try exact Option.noConfusion h
      rcases hsel : assocGet fields "seller" with _ | sv <;>
        simp only [hsel] at h
      · exact Option.noConfusion h
      · rcases sv with _ | b | q | s | xs | fs
        · exact Option.noConfusion h
        · exact Option.noConfusion h
        · exact Option.noConfusion h
        · have hc := Option.some.inj h
          subst hc
          constructor
          · exact hChain
          · show jsTruthy (some ((assocGet fields "tokenAddress").getD Json.null)) = true
            rcases hta : assocGet fields "tokenAddress" with _ | tv
            · rw [hta] at hTok
              simp [jsTruthy] at hTok
            · rw [hta] at hTok
              simpa using hTok
        · exact Option.noConfusion h
        · exact Option.noConfusion h

/-- The legacy flat-header fallback enforces non-empty seller, token address
and atomic amount on every record it returns. -/
theorem parseLegacyHeaders_fields (P : JsPlatform)
    (headers : List (String × String)) (info : RequestInfo) (cid : String)
    (c : ChallengeDetails) (h : parseLegacyHeaders P headers info cid = some c) :
    c.seller ≠ "" ∧ c.amountAtomic ≠ "" ∧
      ∃ t, c.tokenAddress = Json.str t ∧ t ≠ "" := by
  simp only [parseLegacyHeaders] at h
  split_ifs at h with h1 h2 h3
  all_goals try exact Option.noConfusion h
  have hc := Option.some.inj h
  subst hc
  exact ⟨strTruthy_getD _ h1, strTruthy_getD _ h3, _, rfl, strTruthy_getD _ h2⟩

/-- When the embedded challenge JSON of a `WWW-Authenticate` header yields
nothing, the parameter fallback enforces non-empty seller, token address and
atomic amount. -/
theorem fromAuth_fallback_fields (P : JsPlatform) (v : String)
    (info : RequestInfo) (raw : List (String × String)) (fid : String)
    (c : ChallengeDetails)
    (hemb : ∀ ps cv, authParams v = some ps →
      (assocGet ps "challenge" <|> assocGet ps "payload") = some cv → cv ≠ "" →
      parseChallengeValue P cv info raw fid = none)
    (h : fromAuthenticateChallenge P v info raw fid = some c) :
    c.seller ≠ "" ∧ c.amountAtomic ≠ "" ∧
      ∃ t, c.tokenAddress = Json.str t ∧ t ≠ "" := by
  rcases hap : authParams v with _ | ps <;>
    simp only [fromAuthenticateChallenge, hap] at h
  · exact Option.noConfusion h
  · have hvj : (if strTruthy (assocGet ps "challenge" <|> assocGet ps "payload") = true then
        parseChallengeValue P
          ((assocGet ps "challenge" <|> assocGet ps "payload").getD "") info raw fid
      else none) = none := by
      rcases hcv : assocGet ps "challenge" <|> assocGet ps "payload" with _ | cv
      · simp [strTruthy]
      · by_cases hne : cv = ""
        · simp [strTruthy, hne]
        · rw [if_pos (by simp [strTruthy, hne])]
          simp only [Option.getD_some]
          exact hemb ps cv hap hcv hne
    rw [hvj] at h
    simp only [] at h
    split_ifs at h with h1 h2 h3
    all_goals try exact Option.noConfusion h
    all_goals
      have hc := Option.some.inj h
      subst hc
      exact ⟨strTruthy_getD _ h1, strTruthy_getD _ h3, _, rfl, strTruthy_getD _ h2⟩

/-- The `!amountAtomic` and `!asset || !payTo` truthiness guards of the
body path's tail enforce non-empty seller, atomic amount and token
address on every record it returns. -/
theorem bodyChallengeOfExact_fields (P : JsPlatform)
    (headers : List (String × String)) (payload exactEntry : Json)
    (info : RequestInfo) (c : ChallengeDetails)
    (h : bodyChallengeOfExact P headers payload exactEntry info = some c) :
    c.seller ≠ "" ∧ c.amountAtomic ≠ "" ∧
      ∃ t, c.tokenAddress = Json.str t ∧ t ≠ "" := by
  simp only [bodyChallengeOfExact] at h
  split_ifs at h with h1 h2 h3
  have hc := Option.some.inj h
  subst hc
  exact ⟨strTruthy_getD _ h3, strTruthy_getD _ h1, _, rfl, strTruthy_getD _ h2⟩

/-- The JSON-body path returns a record only when seller, token address
and atomic amount are all non-empty. -/
theorem parseChallengeFromBody_fields (P : JsPlatform)
    (headers : List (String × String)) (bodyText : String)
    (info : RequestInfo) (c : ChallengeDetails)
    (h : parseChallengeFromBody P headers bodyText info = some c) :
    c.seller ≠ "" ∧ c.amountAtomic ≠ "" ∧
      ∃ t, c.tokenAddress = Json.str t ∧ t ≠ "" := by
  simp only [parseChallengeFromBody] at h
  split_ifs at h with hct
  rcases hp : P.jsonParse bodyText with _ | payload <;> simp only [hp] at h
  · exact Option.noConfusion h
  · rcases payload with _ | b | q | s | xs | fields <;> simp only [] at h
    · exact Option.noConfusion h
    · exact Option.noConfusion h
    · exact Option.noConfusion h
    · exact Option.noConfusion h
    · rcases hf : List.find? isExactAccept
          (arrayOrEmpty (objGet (Json.arr xs) "accepts")) with _ | exactEntry <;>
        simp only [hf] at h
      · exact Option.noConfusion h
      · exact bodyChallengeOfExact_fields P headers _ _ info c h
    · rcases hf : List.find? isExactAccept
          (arrayOrEmpty (objGet (Json.obj fields) "accepts")) with _ | exactEntry <;>
        simp only [hf] at h
      · exact Option.noConfusion h
      · exact bodyChallengeOfExact_fields P headers _ _ info c h

/-- C3 (amended): the legacy flat-header fallback, the auth-parameter
fallback and the JSON-body path return a record only when seller, token
address and atomic amount are all non-empty; the JSON-challenge path
(dedicated header or embedded challenge/payload parameter) guarantees only
a truthy chain id, a truthy token address and a string-typed seller — it
can return a record whose seller (or atomic amount) is the empty string. -/
theorem c3_amended :
    (∀ (P : JsPlatform) (json : String) (info : RequestInfo)
      (raw : List (String × String)) (fid : String) (c : ChallengeDetails),
      fromJsonChallenge P json info raw fid = some c →
        jqTruthy c.chainId = true ∧ jsTruthy (some c.tokenAddress) = true) ∧
    (∀ (P : JsPlatform) (headers : List (String × String)) (info : RequestInfo)
      (c : ChallengeDetails),
      (∀ v, assocGet headers "x-payment-challenge" = some v → v ≠ "" →
        parseChallengeValue P v info headers
          ((assocGet headers "x-402-id").getD P.randomUUID) = none) →
      (∀ v ps cv, assocGet headers "www-authenticate" = some v →
        authParams v = some ps →
        (assocGet ps "challenge" <|> assocGet ps "payload") = some cv → cv ≠ "" →
        parseChallengeValue P cv info headers
          ((assocGet headers "x-402-id").getD P.randomUUID) = none) →
      parseChallengeHeaders P headers info = some c →
      c.seller ≠ "" ∧ c.amountAtomic ≠ "" ∧
        ∃ t, c.tokenAddress = Json.str t ∧ t ≠ "") ∧
    (∀ (P : JsPlatform) (headers : List (String × String)) (bodyText : String)
      (info : RequestInfo) (c : ChallengeDetails),
      parseChallengeFromBody P headers bodyText info = some c →
      c.seller ≠ "" ∧ c.amountAtomic ≠ "" ∧
        ∃ t, c.tokenAddress = Json.str t ∧ t ≠ "") := by
  refine ⟨fromJsonChallenge_guarantees, ?_, parseChallengeFromBody_fields⟩
  · intro P headers info c hjson hauthjson hparse
    rcases hj : assocGet headers "x-payment-challenge" with _ | v <;>
      rcases hw : assocGet headers "www-authenticate" with _ | u <;>
      simp only [parseChallengeHeaders, hj, hw] at hparse
    · exact parseLegacyHeaders_fields _ _ _ _ _ hparse
    · by_cases hu : u = ""
      · rw [if_neg (by simp [hu])] at hparse
        exact parseLegacyHeaders_fields _ _ _ _ _ hparse
      · rw [if_pos hu] at hparse
        rcases hFA : fromAuthenticateChallenge P u info headers
            ((assocGet headers "x-402-id").getD P.randomUUID) with _ | c2
        · rw [hFA] at hparse
          exact parseLegacyHeaders_fields _ _ _ _ _ hparse
        · rw [hFA] at hparse
          have hcc := Option.some.inj hparse
          subst hcc
          exact fromAuth_fallback_fields P u info headers _ _
            (fun ps cv hap hcv hne => hauthjson u ps cv hw hap hcv hne) hFA
    · by_cases hv : v = ""
      · rw [if_neg (by simp [hv])] at hparse
        exact parseLegacyHeaders_fields _ _ _ _ _ hparse
      · rw [if_pos hv, hjson v hj hv] at hparse
        exact parseLegacyHeaders_fields _ _ _ _ _ hparse
    · by_cases hv : v = ""
      · rw [if_neg (by simp [hv])] at hparse
        by_cases hu : u = ""
        · rw [if_neg (by simp [hu])] at hparse
          exact parseLegacyHeaders_fields _ _ _ _ _ hparse
        · rw [if_pos hu] at hparse
          rcases hFA : fromAuthenticateChallenge P u info headers
              ((assocGet headers "x-402-id").getD P.randomUUID) with _ | c2
          · rw [hFA] at hparse
            exact parseLegacyHeaders_fields _ _ _ _ _ hparse
          · rw [hFA] at hparse
            have hcc := Option.some.inj hparse
            subst hcc
            exact fromAuth_fallback_fields P u info headers _ _
              (fun ps cv hap hcv hne => hauthjson u ps cv hw hap hcv hne) hFA
      · rw [if_pos hv, hjson v hj hv] at hparse
        by_cases hu : u = ""
        · rw [if_neg (by simp [hu])] at hparse
          exact parseLegacyHeaders_fields _ _ _ _ _ hparse
        · rw [if_pos hu] at hparse
          rcases hFA : fromAuthenticateChallenge P u info headers
              ((assocGet headers "x-402-id").getD P.randomUUID) with _ | c2
          · rw [hFA] at hparse
            exact parseLegacyHeaders_fields _ _ _ _ _ hparse
          · rw [hFA] at hparse
            have hcc := Option.some.inj hparse
            subst hcc
            exact fromAuth_fallback_fields P u info headers _ _
              (fun ps cv hap hcv hne => hauthjson u ps cv hw hap hcv hne) hFA

/-- Witness for C3 (amended): legacy-only headers, and a JSON body whose
`accepts` entry carries the payment terms, both yield records with
non-empty seller, atomic amount and token address. -/
theorem c3_amended_witness :
    (c10Expected.seller ≠ "" ∧ c10Expected.amountAtomic ≠ "" ∧
      ∃ t, c10Expected.tokenAddress = Json.str t ∧ t ≠ "") ∧
    (b3Expected.seller ≠ "" ∧ b3Expected.amountAtomic ≠ "" ∧
      ∃ t, b3Expected.tokenAddress = Json.str t ∧ t ≠ "") :=
  ⟨c3_amended.2.1 c10Platform c10Headers sampleInfo c10Expected
      (fun _ hv _ => Option.noConfusion hv)
      (fun _ _ _ hv _ _ _ => Option.noConfusion hv)
      rfl,
    c3_amended.2.2 b3Platform b3Headers b3Body sampleInfo b3Expected rfl⟩

theorem applyRuntimeWallet_snd_history (w : World) (st : ExtensionState)
    (b : Bool) (now : ℕ) :
    (applyRuntimeWallet w st b now).2.history = st.history := by
  rcases hw : st.wallet with _ | wt <;> simp [applyRuntimeWallet, hw] <;>
    split_ifs <;> rfl

theorem getState_snd_history (w : World) (now : ℕ) (b : Bool) :
    (getState w now b).2.history = (w.stored.map (·.history)).getD [] := by
  rcases hs : w.stored with _ | s
  · simp [getState, hs, INITIAL_STATE]
  · rcases hw : s.wallet with _ | wt
    · simp [getState, hs, hw, applyRuntimeWallet_snd_history]
    · by_cases hk : strTruthy wt.privateKey = true <;>
        simp [getState, hs, hw, hk, applyRuntimeWallet_snd_history]

theorem getState_fst_history (w : World) (now : ℕ) (b : Bool) :
    ((getState w now b).1.stored.map (·.history)) =
      some ((w.stored.map (·.history)).getD []) := by
  rcases hs : w.stored with _ | s
  · simp [getState, hs, INITIAL_STATE]
  · rcases hw : s.wallet with _ | wt
    · simp [getState, hs, hw, applyRuntimeWallet_fst_stored]
    · by_cases hk : strTruthy wt.privateKey = true <;>
        simp [getState, hs, hw, hk, applyRuntimeWallet_fst_stored]

theorem setState_fst_history (w : World) (now : ℕ) (u : StateUpdate) :
    ((setState w now u).1.stored.map (·.history)) =
      some (u.history.getD ((w.stored.map (·.history)).getD [])) := by
  simp only [setState]
  simp [getState_snd_history]

theorem strTruthy_none : strTruthy none = false := rfl

theorem not_runtimeUnlocked_none (w : World) (now : ℕ)
    (hk : w.runtimePrivateKey = none) : ¬ runtimeUnlocked w now := by
  intro h
  rcases h with ⟨ht, _⟩
  rw [hk] at ht
  exact absurd ht (by simp [strTruthy])

/-- With no valid runtime unlock, every `getState` read sees the stored
wallet with the transient key stripped and `lockedUntil = 0`. -/
theorem getState_wallet_locked (w : World) (now : ℕ) (b : Bool)
    (hl : ¬ runtimeUnlocked w now) :
    (getState w now b).2.wallet = (w.stored.bind (·.wallet)).map
      (fun wt => { wt with privateKey := none, lockedUntil := 0 }) := by
  rcases hs : w.stored with _ | s
  · simp [getState, hs, INITIAL_STATE]
  · rcases hw : s.wallet with _ | wt
    · simp [getState, hs, hw, applyRuntimeWallet]
    · by_cases hk : strTruthy wt.privateKey = true
      · simp [getState, hs, hw, hk, applyRuntimeWallet, runtimeUnlocked,
          strTruthy_none]
      · simp [getState, hs, hw, hk, applyRuntimeWallet, hl]

theorem lc_getState (w : World) (now : ℕ) (b : Bool)
    (h : LockedConfigured w now) : LockedConfigured (getState w now b).1 now := by
  rcases h with ⟨hpres, hl⟩
  rcases hs : w.stored with _ | s
  · rw [hs] at hpres
    simp at hpres
  · rcases hw : s.wallet with _ | wt
    · rw [hs] at hpres
      simp [hw] at hpres
    · constructor
      · by_cases hk : strTruthy wt.privateKey = true
        · simp [getState, hs, hw, hk, applyRuntimeWallet, runtimeUnlocked,
            strTruthy_none]
        · simp [getState, hs, hw, hk, applyRuntimeWallet, hl]
      · by_cases hk : strTruthy wt.privateKey = true
        · simp [getState, hs, hw, hk, applyRuntimeWallet, runtimeUnlocked,
            strTruthy_none]
        · simp only [getState, hs, hw, hk, applyRuntimeWallet]
          simp only [if_neg hl]
          exact not_runtimeUnlocked_none _ _ rfl

theorem lc_setState (w : World) (now : ℕ) (u : StateUpdate)
    (hu : u.wallet = none) (h : LockedConfigured w now) :
    LockedConfigured (setState w now u).1 now := by
  have hr := lc_getState w now false h
  have hwv := getState_wallet_locked w now false h.2
  constructor
  · simp only [setState, hu]
    simp only [Option.some_bind]
    rw [hwv]
    rcases hb : w.stored.bind (·.wallet) with _ | wt
    · rw [hb] at hwv
      have := h.1
      rw [hb] at this
      simp at this
    · simp [sanitizeWalletForPersist]
  · simp only [setState, hu]
    simp only [Bool.false_eq_true, Option.isSome_none, if_neg, not_false_iff]
    exact hr.2

theorem lc_setExtensionStatus (w : World) (now : ℕ) (st : ExtensionStatus)
    (h : LockedConfigured w now) :
    LockedConfigured (setExtensionStatus w now st) now :=
  lc_setState _ _ _ rfl h

theorem lc_updateSettings (w : World) (now : ℕ) (u : SettingsUpdate)
    (h : LockedConfigured w now) :
    LockedConfigured (updateSettings w now u).1 now := by
  simp only [updateSettings]
  exact lc_setState _ _ _ rfl (lc_getState _ _ _ h)

theorem lc_pruneExpiredChallenges (w : World) (now : ℕ)
    (h : LockedConfigured w now) :
    LockedConfigured (pruneExpiredChallenges w now) now := by
  simp only [pruneExpiredChallenges]
  split
  · exact lc_setState _ _ _ rfl (lc_getState _ _ _ h)
  · exact lc_getState _ _ _ h

theorem lc_getPendingChallenges (w : World) (now : ℕ)
    (h : LockedConfigured w now) :
    LockedConfigured (getPendingChallenges w now).1 now := by
  simp only [getPendingChallenges]
  exact lc_getState _ _ _ (lc_pruneExpiredChallenges _ _ h)

theorem lc_ensureChallengeStored (w : World) (now : ℕ)
    (challenge : ChallengeDetails) (tabId windowId : Option ℕ)
    (h : LockedConfigured w now) :
    LockedConfigured (ensureChallengeStored w now challenge tabId windowId) now := by
  simp only [ensureChallengeStored, savePendingChallenges]
  exact lc_setState _ _ _ rfl (lc_getPendingChallenges _ _ h)

/-- With a configured wallet and no valid runtime unlock, `processPayment`
throws `WalletLockedError`. -/
theorem processPayment_locked (P : JsPlatform) (w : World)
    (challenge : ChallengeDetails) (autoApproved : Bool) (now : ℕ)
    (today : String) (sign : Except String String) (nonce : String)
    (h : LockedConfigured w now) :
    (processPayment P w challenge autoApproved now today sign nonce).2 =
      Except.error () := by
  have hwv := getState_wallet_locked w now true h.2
  rcases hb : w.stored.bind (·.wallet) with _ | wt
  · rw [hb] at hwv
    have := h.1
    rw [hb] at this
    simp at this
  · rw [hb] at hwv
    simp only [Option.map_some'] at hwv
    simp only [processPayment, hwv]
    simp [strTruthy]

/-- C7: when an auto-approved payment is attempted while the wallet holds no
valid transient secret (no in-memory key, or its window expired),
`processPayment` fails with `WalletLocked` (the thrown
`WalletLockedError`, modelled as `Except.error ()`), and `handleChallenge`
falls through to the interactive prompt, returning action `pending` rather
than failing the request. -/
theorem c7_wallet_locked_fallthrough (P : JsPlatform) (w : World)
    (challenge : ChallengeDetails) (now : ℕ) (today : String)
    (sign : Except String String) (nonce : String)
    (senderTabId promptWindowId : Option ℕ) (autoApproved : Bool)
    (hw : (w.stored.bind (·.wallet)).isSome = true)
    (hl : ¬ runtimeUnlocked w now)
    (ha : shouldAutoApprove (getState w now false).2 challenge now = true) :
    (processPayment P w challenge autoApproved now today sign nonce).2 =
      Except.error () ∧
    (handleChallenge P w challenge now today sign nonce senderTabId
        promptWindowId).2 =
      { action := ResolutionAction.pending,
        challengeId := some challenge.challengeId } := by
  have hlc : LockedConfigured w now := ⟨hw, hl⟩
  refine ⟨processPayment_locked P w challenge autoApproved now today sign nonce hlc, ?_⟩
  have herrW : ∀ w' : World, LockedConfigured w' now →
      (withExtensionStatus (ensureChallengeStored w' now challenge senderTabId none)
        now ExtensionStatus.paying
        (fun wx => processPayment P wx challenge true now today sign nonce)).2 =
      Except.error () := by
    intro w' hlc'
    show (processPayment P
      (setExtensionStatus (ensureChallengeStored w' now challenge senderTabId none)
        now ExtensionStatus.paying) challenge true now today sign nonce).2 =
      Except.error ()
    exact processPayment_locked _ _ _ _ _ _ _ _
      (lc_setExtensionStatus _ _ _ (lc_ensureChallengeStored _ _ _ _ _ hlc'))
  have hinv : ∀ mc : ChainId,
      shouldAutoApprove { (getState w now false).2 with
        settings := { (getState w now false).2.settings with chain := mc } }
        challenge now =
      shouldAutoApprove (getState w now false).2 challenge now := fun _ => rfl
  simp only [handleChallenge]
  rcases hmc : mapChainId challenge.chainId with _ | mc <;> simp only [hmc]
  · rw [if_pos ha]
    rw [herrW (getState w now false).1 (lc_getState _ _ _ hlc)]
  · by_cases hne : mc ≠ (getState w now false).2.settings.chain
    · rw [if_pos hne]
      rw [if_pos ((hinv mc).trans ha)]
      rw [herrW (updateSettings (getState w now false).1 now { chain := some mc }).1
        (lc_updateSettings _ _ _ (lc_getState _ _ _ hlc))]
    · rw [if_neg hne]
      rw [if_pos ha]
      rw [herrW (getState w now false).1 (lc_getState _ _ _ hlc)]

/-- Witness for C7: a configured but locked wallet at concrete inputs. -/
theorem c7_witness :
    (processPayment c10Platform c7World sampleChallenge true 1000 "2026-10-11"
        (Except.ok "sig") "nonce").2 = Except.error () ∧
    (handleChallenge c10Platform c7World sampleChallenge 1000 "2026-10-11"
        (Except.ok "sig") "nonce" (some 1) (some 2)).2 =
      { action := ResolutionAction.pending,
        challengeId := some sampleChallenge.challengeId } :=
  c7_wallet_locked_fallthrough c10Platform c7World sampleChallenge 1000
    "2026-10-11" (Except.ok "sig") "nonce" (some 1) (some 2) true rfl
    (by decide)
    (by norm_num [getState, c7World, c7Wallet, INITIAL_STATE, defaultSettings,
      cloneBalance, defaultBalanceTemplate, applyRuntimeWallet, runtimeUnlocked,
      strTruthy, shouldAutoApprove, assocGet, spentInLast24h, jqGt, jqAdd,
      sampleChallenge] <;> decide)

/-- With a valid runtime unlock and a clean stored record, `getState` with
`includePrivateKey` leaves the world unchanged and overlays the runtime
secret and expiry on the wallet. -/
theorem getState_unlocked (w : World) (now : ℕ) (s : ExtensionState)
    (wt : WalletData) (hs : w.stored = some s) (hw : s.wallet = some wt)
    (hclean : ¬ strTruthy wt.privateKey = true) (hu : runtimeUnlocked w now) :
    (getState w now true).1 = w ∧
    (getState w now true).2.wallet = some { wt with
      privateKey := w.runtimePrivateKey,
      lockedUntil := w.runtimeLockedUntil } := by
  constructor <;> simp [getState, hs, hw, hclean, applyRuntimeWallet, hu]

/-- When signing fails, `createAuthorization` throws (either the signing
error or the missing-key error). -/
theorem createAuthorization_error (P : JsPlatform) (wallet : WalletData)
    (settings : ExtensionSettings) (challenge : ChallengeDetails)
    (nowMs : ℕ) (nonce msg : String) :
    ∃ e, createAuthorization P wallet settings challenge nowMs nonce
      (Except.error msg) = Except.error e := by
  rcases hpk : wallet.privateKey with _ | k <;>
    simp only [createAuthorization, hpk, Option.map_some', Option.map_none']
  · exact ⟨_, rfl⟩
  · by_cases ht : jsTrim k = ""
    · rw [if_pos ht]
      exact ⟨_, rfl⟩
    · rw [if_neg ht]
      exact ⟨_, rfl⟩

/-- A `setState` carrying an explicit wallet captures its `lockedUntil` in
the runtime variables and persists it (key stripped). -/
theorem setState_wallet_set (w : World) (now : ℕ) (u : StateUpdate)
    (W : WalletData) (hu : u.wallet = some (some W)) :
    (setState w now u).1.runtimeLockedUntil = W.lockedUntil ∧
    ((setState w now u).1.stored.bind (·.wallet)).map (·.lockedUntil) =
      some W.lockedUntil := by
  simp only [setState, hu]
  constructor
  · simp
  · simp [sanitizeWalletForPersist]

theorem recordPayment_history (w : World) (now : ℕ) (rec : PaymentRecord) :
    ((recordPayment w now rec).stored.map (·.history)) =
      some ((rec :: (w.stored.map (·.history)).getD []).take 2000) := by
  have h1 : ((addHistory w now rec).1.stored.map (·.history)) =
      some ((rec :: (w.stored.map (·.history)).getD []).take 2000) := by
    simp only [addHistory]
    rw [setState_fst_history]
    simp [getState_snd_history]
  simp only [recordPayment, pruneJwtCache]
  rw [setState_fst_history]
  rw [getState_fst_history]
  simp [h1]

theorem head_take_cons (a : PaymentRecord) (l : List PaymentRecord) :
    ((a :: l).take 2000).head? = some a := by
  rw [show (2000 : ℕ) = 1999 + 1 from rfl, List.take_succ_cons]
  rfl

/-- C9: with a valid transient secret, when authorization construction or
signing throws, `processPayment` reports an `error` resolution, appends a
PaymentRecord with status `error`, and still renews the wallet's
`lockedUntil` to now plus the configured lock duration — in the runtime
variables and in the persisted record alike. -/
theorem c9_error_record_renews_lock (P : JsPlatform) (w : World)
    (challenge : ChallengeDetails) (autoApproved : Bool) (now : ℕ)
    (today msg nonce : String) (s : ExtensionState) (wt : WalletData)
    (hs : w.stored = some s) (hw : s.wallet = some wt)
    (hclean : ¬ strTruthy wt.privateKey = true)
    (hu : runtimeUnlocked w now) :
    (processPayment P w challenge autoApproved now today (Except.error msg)
        nonce).2 =
      Except.ok { action := ResolutionAction.error,
                  message := some "Auto payment failed" } ∧
    ((((processPayment P w challenge autoApproved now today (Except.error msg)
        nonce).1.stored.map (·.history)).getD []).head?).map (·.status) =
      some PaymentStatus.error ∧
    (processPayment P w challenge autoApproved now today (Except.error msg)
        nonce).1.runtimeLockedUntil =
      computeUnlockExpiry wt.lockDurationMinutes now ∧
    (((processPayment P w challenge autoApproved now today (Except.error msg)
        nonce).1.stored.bind (·.wallet)).map (·.lockedUntil)) =
      some (computeUnlockExpiry wt.lockDurationMinutes now) := by
  have hg := getState_unlocked w now s wt hs hw hclean hu
  obtain ⟨e, he⟩ := createAuthorization_error P
    { wt with
      privateKey := w.runtimePrivateKey,
      lockedUntil := w.runtimeLockedUntil }
    (getState w now true).2.settings challenge now nonce msg
  have hcond : ¬ (¬ strTruthy ({ wt with
      privateKey := w.runtimePrivateKey,
      lockedUntil := w.runtimeLockedUntil } : WalletData).privateKey = true ∨
      ({ wt with
        privateKey := w.runtimePrivateKey,
        lockedUntil := w.runtimeLockedUntil } : WalletData).lockedUntil = 0 ∨
      ({ wt with
        privateKey := w.runtimePrivateKey,
        lockedUntil := w.runtimeLockedUntil } : WalletData).lockedUntil ≤ now) := by
    rcases hu with ⟨hk, hn⟩
    push_neg
    refine ⟨?_, ?_, ?_⟩
    · simpa using hk
    · show w.runtimeLockedUntil ≠ 0
      omega
    · show now < w.runtimeLockedUntil
      omega
  simp only [processPayment, hg.2]
  rw [if_neg hcond, he, hg.1]
  refine ⟨rfl, ?_, ?_, ?_⟩
  · simp [setState_fst_history, recordPayment_history, head_take_cons]
  · rw [(setState_wallet_set _ now _ _ rfl).1]
  · rw [(setState_wallet_set _ now _ _ rfl).2]

/-- Witness for C9 at a concrete unlocked wallet with a failing signer. -/
theorem c9_witness :
    (processPayment c10Platform c9World sampleChallenge true 1000 "2026-10-11"
        (Except.error "boom") "nonce").2 =
      Except.ok { action := ResolutionAction.error,
                  message := some "Auto payment failed" } ∧
    ((((processPayment c10Platform c9World sampleChallenge true 1000
        "2026-10-11" (Except.error "boom") "nonce").1.stored.map
        (·.history)).getD []).head?).map (·.status) =
      some PaymentStatus.error ∧
    (processPayment c10Platform c9World sampleChallenge true 1000 "2026-10-11"
        (Except.error "boom") "nonce").1.runtimeLockedUntil =
      computeUnlockExpiry c7Wallet.lockDurationMinutes 1000 ∧
    (((processPayment c10Platform c9World sampleChallenge true 1000
        "2026-10-11" (Except.error "boom") "nonce").1.stored.bind
        (·.wallet)).map (·.lockedUntil)) =
      some (computeUnlockExpiry c7Wallet.lockDurationMinutes 1000) :=
  c9_error_record_renews_lock c10Platform c9World sampleChallenge true 1000
    "2026-10-11" "boom" "nonce"
    { INITIAL_STATE with wallet := some c7Wallet } c7Wallet rfl rfl
    (by decide) (by decide)
